import Mathlib

/-! Pressure stall information parsing (`pressure.go`).

A shallow embedding of `NewResourcePressure` and of the library functions it
calls (`regexp.FindAllStringSubmatch` for the pattern `pressureLineRE`,
`strconv.ParseUint`, `strconv.ParseFloat`), followed by theorems about the
parse result.

Text is modelled as `List Char`: a file content is taken to be valid UTF-8, and
the pattern holds ASCII characters only, so that matching characters and
matching bytes agree. A Go `error` is modelled by its message, and the pair a
Go function returns by a Lean pair, `none` standing for a `nil` error.
-/

namespace Procfs

/-! ## Regular expressions: the fragment used by `pressureLineRE` -/

/-- Regular expressions built from the operators that occur in `pressureLineRE`:
literal characters, concatenation, alternation, a greedy `+` over a character
class, and numbered capture groups. -/
inductive Regex where
  | eps : Regex
  | lit : Char → Regex
  | plus : (Char → Bool) → Regex
  | seq : Regex → Regex → Regex
  | alt : Regex → Regex → Regex
  | group : Nat → Regex → Regex

/-- Captured groups: group number and captured text, most recent first. -/
abbrev Caps := List (Nat × List Char)

/-- Greedy repetition of a character class, as a backtracking search: consume
one more character when possible and only fall back to stopping here when the
continuation fails further on. -/
def starCls {α : Type} (p : Char → Bool) : List Char → (List Char → Option α) → Option α
  | [], k => k []
  | x :: xs, k =>
    if p x then
      match starCls p xs k with
      | some r => some r
      | none => k (x :: xs)
    else k (x :: xs)

/-- Backtracking matcher with Go's leftmost-first preference: of two
alternatives the left one is tried first, repetition is greedy. The
continuation `k` receives the unconsumed input and the captures. -/
def Regex.run {α : Type} : Regex → List Char → Caps → (List Char → Caps → Option α) → Option α
  | .eps, s, caps, k => k s caps
  | .lit c, s, caps, k =>
    match s with
    | x :: xs => if x = c then k xs caps else none
    | [] => none
  | .plus p, s, caps, k =>
    match s with
    | x :: xs => if p x then starCls p xs (fun r => k r caps) else none
    | [] => none
  | .seq a b, s, caps, k => a.run s caps (fun s1 caps1 => b.run s1 caps1 k)
  | .alt a b, s, caps, k =>
    match a.run s caps k with
    | some r => some r
    | none => b.run s caps k
  | .group i a, s, caps, k =>
    a.run s caps (fun s1 caps1 => k s1 ((i, s.take (s.length - s1.length)) :: caps1))

/-- A literal string. -/
def Regex.str : List Char → Regex
  | [] => .eps
  | c :: cs => .seq (.lit c) (Regex.str cs)

/-- Text of capture group `i`, empty when the group did not take part. -/
def Caps.get (caps : Caps) (i : Nat) : List Char :=
  match caps.find? (fun e => e.1 == i) with
  | some e => e.2
  | none => []

/-- Number of capture groups (`re.NumSubexp()`): the largest group number. -/
def Regex.NumSubexp : Regex → Nat
  | .eps => 0
  | .lit _ => 0
  | .plus _ => 0
  | .seq a b => max a.NumSubexp b.NumSubexp
  | .alt a b => max a.NumSubexp b.NumSubexp
  | .group i a => max i a.NumSubexp

/-- One match of the pattern at the start of `s`: the submatch slice (whole
match first, then the groups in order) and the unconsumed input. -/
def Regex.matchHere (re : Regex) (s : List Char) : Option (List (List Char) × List Char) :=
  re.run s [] (fun rest caps =>
    some (s.take (s.length - rest.length) ::
      (List.range re.NumSubexp).map (fun i => caps.get (i + 1)), rest))

/-- Scan used by `FindAllStringSubmatch`: `skip` characters still belong to the
previous match; otherwise try a match here, and move one character on when
there is none. Successive matches do not overlap. The library's extra rules for
empty matches are not modelled; `pressureLineRE` matches no empty string. -/
def Regex.findAllFrom (re : Regex) : Nat → List Char → List (List (List Char))
  | _, [] => []
  | skip + 1, _ :: xs => Regex.findAllFrom re skip xs
  | 0, x :: xs =>
    match re.matchHere (x :: xs) with
    | some (m, rest) => m :: Regex.findAllFrom re ((x :: xs).length - rest.length - 1) xs
    | none => Regex.findAllFrom re 0 xs

/-- Model of `re.FindAllStringSubmatch(s, -1)`: all successive leftmost matches. -/
def Regex.FindAllStringSubmatch (re : Regex) (s : List Char) : List (List (List Char)) :=
  Regex.findAllFrom re 0 s

/-- The class `\d`. -/
def isDigit (c : Char) : Bool := decide ('0' ≤ c) && decide (c ≤ '9')

/-- The class `[0-9.]`. -/
def isDigitOrDot (c : Char) : Bool := isDigit c || c == '.'

/-- Pattern of one pressure record:
`(?P<type>some|full) avg10=(?P<avg10>[0-9.]+) avg60=(?P<avg60>[0-9.]+) avg300=(?P<avg300>[0-9.]+) total=(?P<total>\d+)`. -/
def pressureLineRE : Regex :=
  .seq (.group 1 (.alt (.str "some".toList) (.str "full".toList)))
  (.seq (.str " avg10=".toList) (.seq (.group 2 (.plus isDigitOrDot))
  (.seq (.str " avg60=".toList) (.seq (.group 3 (.plus isDigitOrDot))
  (.seq (.str " avg300=".toList) (.seq (.group 4 (.plus isDigitOrDot))
  (.seq (.str " total=".toList) (.group 5 (.plus isDigit)))))))))

/-- `pressureLineRE.SubexpNames()`. -/
def SubexpNames : List (List Char) :=
  ["".toList, "type".toList, "avg10".toList, "avg60".toList, "avg300".toList, "total".toList]

/-! ## `strconv` -/

/-- The two causes of a conversion failure, `strconv.ErrSyntax` and `strconv.ErrRange`. -/
inductive ConvErr where
  | ErrSyntax
  | ErrRange
  deriving DecidableEq, Repr

/-- Message of the cause. -/
def ConvErr.Error : ConvErr → List Char
  | .ErrSyntax => "invalid syntax".toList
  | .ErrRange => "value out of range".toList

/-- A failed conversion, `strconv.NumError`: the function, the input text and the cause. -/
structure NumError where
  Func : List Char
  Num : List Char
  Err : ConvErr
  deriving DecidableEq, Repr

/-- `strconv.Quote` for text that needs no escaping (digits and dots need none):
the text between double quotes. -/
def Quote (s : List Char) : List Char := '"' :: s ++ ['"']

/-- `(*NumError).Error()`. -/
def NumError.Error (e : NumError) : List Char :=
  "strconv.".toList ++ e.Func ++ ": parsing ".toList ++ Quote e.Num ++ ": ".toList ++ e.Err.Error

/-- Largest `uint64`. -/
def maxUint64 : Nat := 2 ^ 64 - 1

/-- Value of a digit character in `ParseUint`; `none` is the `default` case. -/
def digitVal (c : Char) : Option Nat :=
  if '0' ≤ c ∧ c ≤ '9' then some (c.toNat - '0'.toNat)
  else if 'a' ≤ c ∧ c ≤ 'z' then some (c.toNat - 'a'.toNat + 10)
  else if 'A' ≤ c ∧ c ≤ 'Z' then some (c.toNat - 'A'.toNat + 10)
  else none

/-- The digit loop of `ParseUint`, with `n` the `uint64` accumulator. -/
def parseUintLoop (s0 : List Char) (base cutoff maxVal : Nat) :
    List Char → Nat → Nat × Option NumError
  | [], n => (n, none)
  | c :: cs, n =>
    match digitVal c with
    | none => (0, some ⟨"ParseUint".toList, s0, .ErrSyntax⟩)
    | some d =>
      if d ≥ base then (0, some ⟨"ParseUint".toList, s0, .ErrSyntax⟩)
      else if n ≥ cutoff then (maxVal, some ⟨"ParseUint".toList, s0, .ErrRange⟩)
      else
        let n0 := (n * base) % 2 ^ 64
        let n1 := (n0 + d) % 2 ^ 64
        if n1 < n0 ∨ n1 > maxVal then (maxVal, some ⟨"ParseUint".toList, s0, .ErrRange⟩)
        else parseUintLoop s0 base cutoff maxVal cs n1

/-- `strconv.ParseUint(s, base, bitSize)` for an explicit base `2..36` and a bit
size `1..64` (the call site passes 10 and 64): value and error. -/
def ParseUint (s : List Char) (base bitSize : Nat) : Nat × Option NumError :=
  if s = [] then (0, some ⟨"ParseUint".toList, s, .ErrSyntax⟩)
  else parseUintLoop s base (maxUint64 / base + 1) (2 ^ bitSize - 1) s 0

/-- The `float64` values that an unsigned decimal text can denote: a finite
value `mant * 2 ^ exp` in canonical form (`mant < 2 ^ 53`, `-1074 ≤ exp ≤ 971`,
and `2 ^ 52 ≤ mant` unless `exp = -1074`), or `+Inf`. -/
inductive Float64 where
  | finite (mant : Nat) (exp : Int)
  | inf
  deriving DecidableEq, Repr

/-- The zero value of `float64`. -/
def Float64.zero : Float64 := .finite 0 (-1074)

/-- Quotient `n / d` rounded to the nearest integer, ties to even. -/
def roundHalfEven (n d : Nat) : Nat :=
  let q := n / d
  let r := n % d
  if 2 * r < d then q
  else if d < 2 * r then q + 1
  else if q % 2 = 0 then q else q + 1

/-- Whether `2 ^ e ≤ n / d`, for `0 < d`. -/
def pow2Le (e : Int) (n d : Nat) : Bool :=
  if 0 ≤ e then decide (d * 2 ^ e.toNat ≤ n) else decide (d ≤ n * 2 ^ (-e).toNat)

/-- Position of the highest set bit of `n`, searched with `fuel` halvings. -/
def log2Fuel : Nat → Nat → Nat
  | 0, _ => 0
  | fuel + 1, n => if n < 2 then 0 else log2Fuel fuel (n / 2) + 1

/-- Floor of the binary logarithm of `n` (0 for `n = 0`). -/
def log2 (n : Nat) : Nat := log2Fuel n n

/-- The `float64` nearest to `n / d` (`0 < d`) under IEEE 754 round-to-nearest-even,
which is what `ParseFloat` returns; `inf` when the rounded value exceeds the
largest finite `float64`. -/
def nearestFloat64 (n d : Nat) : Float64 :=
  if n = 0 then Float64.zero
  else
    let e0 : Int := (log2 n : Int) - (log2 d : Int)
    let e : Int := if pow2Le e0 n d then e0 else e0 - 1
    let exp : Int := max (e - 52) (-1074)
    let mant : Nat :=
      if 0 ≤ exp then roundHalfEven n (d * 2 ^ exp.toNat)
      else roundHalfEven (n * 2 ^ (-exp).toNat) d
    let exp1 : Int := if mant = 2 ^ 53 then exp + 1 else exp
    let mant1 : Nat := if mant = 2 ^ 53 then 2 ^ 52 else mant
    if 971 < exp1 then .inf else .finite mant1 exp1

/-- Scan of an unsigned decimal text: digits with at most one `.` and at least
one digit. Returns the digits read as one number and the count of digits after
the point; `none` is a syntax error. -/
def readDecimal : List Char → Nat → Bool → Bool → Nat → Option (Nat × Nat)
  | [], mant, _, sawdigits, frac => if sawdigits then some (mant, frac) else none
  | c :: cs, mant, sawdot, sawdigits, frac =>
    if c = '.' then
      if sawdot then none else readDecimal cs mant true sawdigits frac
    else if isDigit c then
      readDecimal cs (mant * 10 + (c.toNat - '0'.toNat)) sawdot true
        (if sawdot then frac + 1 else frac)
    else none

/-- `strconv.ParseFloat(s, 64)` on the texts that `[0-9.]+` can capture, runs of
digits and dots: a syntax error unless the text has at least one digit and at
most one dot, else the nearest `float64`, with a range error when that is
infinite. Signs, exponents, `inf`, `nan` and hexadecimal forms are not
modelled: a text with any other character is rejected here, and no such text
reaches this function from `pressureLineRE`. -/
def ParseFloat (s : List Char) : Float64 × Option NumError :=
  match readDecimal s 0 false false 0 with
  | none => (Float64.zero, some ⟨"ParseFloat".toList, s, .ErrSyntax⟩)
  | some (mant, frac) =>
    match nearestFloat64 mant (10 ^ frac) with
    | .inf => (.inf, some ⟨"ParseFloat".toList, s, .ErrRange⟩)
    | f => (f, none)

/-! ## The data model and `NewResourcePressure` -/

/-- A pressure measurement, full or partial, for a single resource. -/
structure ResourcePressureMeasurement where
  CongestedPercent10Seconds : Float64
  CongestedPercent60Seconds : Float64
  CongestedPercent300Seconds : Float64
  TotalMicroseconds : Nat
  deriving DecidableEq, Repr

/-- The parsed representation of a resource pressure file; `none` is the nil pointer. -/
structure ResourcePressure where
  Resource : List Char
  Full : Option ResourcePressureMeasurement
  Some : Option ResourcePressureMeasurement
  deriving DecidableEq, Repr

/-- The file system handle. Its type and `Path` are declared elsewhere in the
package and `ioutil.ReadFile` is the operating system: the handle is taken as
the outcome of `ioutil.ReadFile(fs.Path("pressure", resource))` for each
resource name, the file content or the error. -/
structure FS where
  ReadFile : List Char → Except (List Char) (List Char)

/-- A Go `error` value: its message. -/
abbrev GoError := List Char

/-- The `elements` map of one match: `elements[name] = submatch[i]` for each
`i, name` of `SubexpNames`, later assignments in front. -/
def elementsOf (submatch : List (List Char)) : List (List Char × List Char) :=
  (SubexpNames.enum).foldl (fun elements e => (e.2, submatch.getD e.1 []) :: elements) []

/-- Map lookup `elements[name]`; the empty string for a missing key. -/
def elemAt (elements : List (List Char × List Char)) (name : List Char) : List Char :=
  match elements.find? (fun e => e.1 == name) with
  | some e => e.2
  | none => []

/-- The loop over the matches (lines 57-88) followed by the final check (lines
90-94); a `return` inside the loop ends the function with the `result` built
so far. -/
def pressureLoop (resource : List Char) :
    ResourcePressure → List (List (List Char)) → ResourcePressure × Option GoError
  | result, [] =>
    if result.Some = none ∧ result.Full = none then
      (result, some ("could not parse pressure file for ".toList ++ resource))
    else (result, none)
  | result, submatch :: more =>
    let elements := elementsOf submatch
    let total := ParseUint (elemAt elements "total".toList) 10 64
    match total.2 with
    | some err =>
      (result, some ("could not parse total ".toList ++ elemAt elements "total".toList
        ++ ": ".toList ++ err.Error))
    | none =>
    let avg10 := ParseFloat (elemAt elements "avg10".toList)
    match avg10.2 with
    | some err =>
      (result, some ("could not parse avg10 ".toList ++ elemAt elements "avg10".toList
        ++ ": ".toList ++ err.Error))
    | none =>
    let avg60 := ParseFloat (elemAt elements "avg60".toList)
    match avg60.2 with
    | some err =>
      (result, some ("could not parse avg60 ".toList ++ elemAt elements "avg60".toList
        ++ ": ".toList ++ err.Error))
    | none =>
    let avg300 := ParseFloat (elemAt elements "avg300".toList)
    match avg300.2 with
    | some err =>
      (result, some ("could not parse avg300 ".toList ++ elemAt elements "avg300".toList
        ++ ": ".toList ++ err.Error))
    | none =>
    let measurement : ResourcePressureMeasurement :=
      { CongestedPercent10Seconds := avg10.1
        CongestedPercent60Seconds := avg60.1
        CongestedPercent300Seconds := avg300.1
        TotalMicroseconds := total.1 }
    if elemAt elements "type".toList = "some".toList then
      pressureLoop resource { result with Some := some measurement } more
    else if elemAt elements "type".toList = "full".toList then
      pressureLoop resource { result with Full := some measurement } more
    else
      (result, some ("unknown pressure measurement type ".toList
        ++ elemAt elements "type".toList))

/-- `NewResourcePressure` loads the pressure data for a given resource: the
returned value and the returned error (`none` is `nil`). -/
def NewResourcePressure (fs : FS) (resource : List Char) : ResourcePressure × Option GoError :=
  let result : ResourcePressure := { Resource := resource, Full := none, Some := none }
  match fs.ReadFile resource with
  | .error err => (result, some err)
  | .ok data => pressureLoop resource result (pressureLineRE.FindAllStringSubmatch data)

/-! ## Statement vocabulary -/

/-- Text of a record with the given kind and field texts. -/
def recordText (ty a b c t : List Char) : List Char :=
  ty ++ (" avg10=".toList ++ (a ++ (" avg60=".toList ++ (b ++ (" avg300=".toList ++
    (c ++ (" total=".toList ++ t)))))))

/-- The shape of a submatch slice produced by `pressureLineRE`. -/
def IsRecord (m : List (List Char)) : Prop :=
  ∃ ty a b c t, (ty = "some".toList ∨ ty = "full".toList) ∧
    a ≠ [] ∧ (∀ x ∈ a, isDigitOrDot x = true) ∧
    b ≠ [] ∧ (∀ x ∈ b, isDigitOrDot x = true) ∧
    c ≠ [] ∧ (∀ x ∈ c, isDigitOrDot x = true) ∧
    t ≠ [] ∧ (∀ x ∈ t, isDigit x = true) ∧
    m = [recordText ty a b c t, ty, a, b, c, t]

/-- Text of the named group of a submatch slice, as the loop body reads it. -/
def field (m : List (List Char)) (name : String) : List Char :=
  elemAt (elementsOf m) name.toList

/-- All four conversions of a record succeed. -/
def Converts (m : List (List Char)) : Prop :=
  (ParseUint (field m "total") 10 64).2 = none ∧ (ParseFloat (field m "avg10")).2 = none ∧
  (ParseFloat (field m "avg60")).2 = none ∧ (ParseFloat (field m "avg300")).2 = none

instance (m : List (List Char)) : Decidable (Converts m) := by
  unfold Converts; infer_instance

/-- The measurement holding the four converted values of a record. -/
def measurementOf (m : List (List Char)) : ResourcePressureMeasurement :=
  { CongestedPercent10Seconds := (ParseFloat (field m "avg10")).1
    CongestedPercent60Seconds := (ParseFloat (field m "avg60")).1
    CongestedPercent300Seconds := (ParseFloat (field m "avg300")).1
    TotalMicroseconds := (ParseUint (field m "total") 10 64).1 }

/-- The error of the first failing conversion of a record, in the order the
loop body converts: total, avg10, avg60, avg300; `none` when all four succeed. -/
def convError (m : List (List Char)) : Option GoError :=
  match (ParseUint (field m "total") 10 64).2 with
  | some err =>
    some ("could not parse total ".toList ++ field m "total" ++ ": ".toList ++ err.Error)
  | none =>
  match (ParseFloat (field m "avg10")).2 with
  | some err =>
    some ("could not parse avg10 ".toList ++ field m "avg10" ++ ": ".toList ++ err.Error)
  | none =>
  match (ParseFloat (field m "avg60")).2 with
  | some err =>
    some ("could not parse avg60 ".toList ++ field m "avg60" ++ ": ".toList ++ err.Error)
  | none =>
  match (ParseFloat (field m "avg300")).2 with
  | some err =>
    some ("could not parse avg300 ".toList ++ field m "avg300" ++ ": ".toList ++ err.Error)
  | none => none

/-- The assignment at the end of the loop body, for a record of kind `some` or `full`. -/
def storeRecord (result : ResourcePressure) (m : List (List Char)) : ResourcePressure :=
  if field m "type" = "some".toList then { result with Some := some (measurementOf m) }
  else { result with Full := some (measurementOf m) }

/-- A decimal number as the record shape describes it: digits with an optional
fractional part (a point followed by digits), no sign, no exponent. -/
def isDecimalText (s : List Char) : Bool :=
  match s.dropWhile isDigit with
  | [] => !s.isEmpty
  | c :: fp => c == '.' && !(s.takeWhile isDigit).isEmpty && !fp.isEmpty && fp.all isDigit

/-- The field texts of a valid record line: three decimal numbers and a
non-empty run of digits, each of which its conversion accepts. -/
def ValidFields (a b c t : List Char) : Prop :=
  isDecimalText a = true ∧ isDecimalText b = true ∧ isDecimalText c = true ∧
  t ≠ [] ∧ t.all isDigit = true ∧
  (ParseUint t 10 64).2 = none ∧ (ParseFloat a).2 = none ∧
  (ParseFloat b).2 = none ∧ (ParseFloat c).2 = none

instance (a b c t : List Char) : Decidable (ValidFields a b c t) := by
  unfold ValidFields; infer_instance

/-- The measurement made of the converted values of four field texts. -/
def convertedFields (a b c t : List Char) : ResourcePressureMeasurement :=
  { CongestedPercent10Seconds := (ParseFloat a).1
    CongestedPercent60Seconds := (ParseFloat b).1
    CongestedPercent300Seconds := (ParseFloat c).1
    TotalMicroseconds := (ParseUint t 10 64).1 }

/-- Whether `f` is the field `name=<value>` with a value that `ok` accepts. -/
def isField (name : String) (ok : List Char → Bool) (f : List Char) : Bool :=
  (name.toList ++ ['=']).isPrefixOf f && ok (f.drop (name.length + 1))

/-- The record shape as the specification words it, for one line:
`<kind> avg10=<f1> avg60=<f2> avg300=<f3> total=<u>` with kind exactly `some`
or `full`, `f1..f3` decimal numbers (digits with an optional fractional part),
`u` a run of digits, and single spaces between the fields. -/
def isRecordLine (line : List Char) : Bool :=
  match line.splitOn ' ' with
  | [kind, f1, f2, f3, u] =>
    (kind == "some".toList || kind == "full".toList) &&
    isField "avg10" isDecimalText f1 && isField "avg60" isDecimalText f2 &&
    isField "avg300" isDecimalText f3 &&
    isField "total" (fun v => !v.isEmpty && v.all isDigit) u
  | _ => false

/-- The lines of a content. -/
def linesOf (content : List Char) : List (List Char) := content.splitOn '\n'

/-- A text of the shape the pattern recognises occurs somewhere in the content:
kind `some` or `full`, the three averages non-empty runs of digits and dots,
the total a non-empty run of digits. -/
def RecordOccurs (content : List Char) : Prop :=
  ∃ pre post ty a b c t, (ty = "some".toList ∨ ty = "full".toList) ∧
    a ≠ [] ∧ (∀ x ∈ a, isDigitOrDot x = true) ∧
    b ≠ [] ∧ (∀ x ∈ b, isDigitOrDot x = true) ∧
    c ≠ [] ∧ (∀ x ∈ c, isDigitOrDot x = true) ∧
    t ≠ [] ∧ (∀ x ∈ t, isDigit x = true) ∧
    content = pre ++ (recordText ty a b c t ++ post)

/-- The last record of the given kind, in textual order. -/
def lastOfKind (kind : String) (ms : List (List (List Char))) : Option (List (List Char)) :=
  (ms.filter (fun m => field m "type" == kind.toList)).getLast?

/-- Every measurement in `result` is the full conversion of one record of
`all` of the slot's kind. -/
def FromRecords (all : List (List (List Char))) (result : ResourcePressure) : Prop :=
  (∀ meas, result.Some = some meas →
    ∃ m ∈ all, field m "type" = "some".toList ∧ Converts m ∧ meas = measurementOf m) ∧
  (∀ meas, result.Full = some meas →
    ∃ m ∈ all, field m "type" = "full".toList ∧ Converts m ∧ meas = measurementOf m)

/-- The field `name`, with text `raw`, is the first of total, avg10, avg60,
avg300 whose conversion fails for the record, and `err` is its failure. -/
def FirstFailingField (m : List (List Char)) (name raw : List Char) (err : NumError) : Prop :=
  (name = "total".toList ∧ raw = field m "total" ∧
    (ParseUint (field m "total") 10 64).2 = some err) ∨
  (name = "avg10".toList ∧ raw = field m "avg10" ∧
    (ParseUint (field m "total") 10 64).2 = none ∧
    (ParseFloat (field m "avg10")).2 = some err) ∨
  (name = "avg60".toList ∧ raw = field m "avg60" ∧
    (ParseUint (field m "total") 10 64).2 = none ∧ (ParseFloat (field m "avg10")).2 = none ∧
    (ParseFloat (field m "avg60")).2 = some err) ∨
  (name = "avg300".toList ∧ raw = field m "avg300" ∧
    (ParseUint (field m "total") 10 64).2 = none ∧ (ParseFloat (field m "avg10")).2 = none ∧
    (ParseFloat (field m "avg60")).2 = none ∧ (ParseFloat (field m "avg300")).2 = some err)

/-- The number a run of decimal digits denotes, leading zeros allowed. -/
def decimalValue (t : List Char) : Nat :=
  t.foldl (fun acc c => acc * 10 + (c.toNat - '0'.toNat)) 0

/-! ## The matcher on record texts -/

theorem run_str_append {α : Type} (l s : List Char) (caps : Caps) (k : List Char → Caps → Option α) :
    (Regex.str l).run (l ++ s) caps k = k s caps := by
  induction l with
  | nil => simp [Regex.str, Regex.run]
  | cons c cs ih => simp [Regex.str, Regex.run, ih]

theorem starCls_greedy {α : Type} (p : Char → Bool) (k : List Char → Option α) (r : α) :
    ∀ s : List Char, k (s.dropWhile p) = some r → starCls p s k = some r := by
  intro s
  induction s with
  | nil => intro h; simpa [starCls] using h
  | cons x xs ih =>
    intro h
    simp only [starCls]
    by_cases hp : p x = true
    · rw [if_pos hp]
      rw [List.dropWhile_cons_of_pos hp] at h
      rw [ih h]
    · rw [if_neg hp]
      rw [List.dropWhile_cons_of_neg hp] at h
      exact h

theorem dropWhile_append_of_all (p : Char → Bool) (a rest : List Char)
    (ha : ∀ x ∈ a, p x = true) (hrest : ∀ x ∈ rest.head?, p x = false) :
    (a ++ rest).dropWhile p = rest := by
  induction a with
  | nil =>
    cases rest with
    | nil => rfl
    | cons y ys =>
      have hy : p y = false := hrest y (by simp)
      simp [List.dropWhile_cons, hy]
  | cons x xs ih =>
    have hx : p x = true := ha x (by simp)
    simp only [List.cons_append, List.dropWhile_cons, hx, if_true]
    exact ih (fun y hy => ha y (by simp [hy]))

theorem take_append_sub (a rest : List Char) :
    (a ++ rest).take ((a ++ rest).length - rest.length) = a := by
  simp

theorem run_group_plus_append {α : Type} (i : Nat) (p : Char → Bool) (a rest : List Char)
    (hne : a ≠ []) (ha : ∀ x ∈ a, p x = true) (hrest : ∀ x ∈ rest.head?, p x = false)
    (caps : Caps) (k : List Char → Caps → Option α) (r : α)
    (hk : k rest ((i, a) :: caps) = some r) :
    (Regex.group i (Regex.plus p)).run (a ++ rest) caps k = some r := by
  cases a with
  | nil => exact absurd rfl hne
  | cons x xs =>
    have hx : p x = true := ha x (by simp)
    simp only [Regex.run, List.cons_append, hx, if_true]
    apply starCls_greedy
    rw [dropWhile_append_of_all p xs rest (fun y hy => ha y (by simp [hy])) hrest]
    have := take_append_sub (x :: xs) rest
    simp only [List.cons_append] at this
    rw [this]
    exact hk

theorem run_seq {α : Type} (a b : Regex) (s : List Char) (caps : Caps)
    (k : List Char → Caps → Option α) :
    (Regex.seq a b).run s caps k = a.run s caps (fun s1 caps1 => b.run s1 caps1 k) := rfl

theorem run_group {α : Type} (i : Nat) (a : Regex) (s : List Char) (caps : Caps)
    (k : List Char → Caps → Option α) :
    (Regex.group i a).run s caps k
      = a.run s caps (fun s1 caps1 => k s1 ((i, s.take (s.length - s1.length)) :: caps1)) := rfl

theorem run_alt {α : Type} (a b : Regex) (s : List Char) (caps : Caps)
    (k : List Char → Caps → Option α) :
    (Regex.alt a b).run s caps k
      = match a.run s caps k with
        | some r => some r
        | none => b.run s caps k := rfl

theorem run_seq_str_append {α : Type} (l : List Char) (re : Regex) (s : List Char) (caps : Caps)
    (k : List Char → Caps → Option α) :
    (Regex.seq (Regex.str l) re).run (l ++ s) caps k = re.run s caps k := by
  rw [run_seq, run_str_append]

theorem run_kind_append {α : Type} (ty rest : List Char)
    (hty : ty = "some".toList ∨ ty = "full".toList)
    (caps : Caps) (k : List Char → Caps → Option α) (r : α)
    (hk : k rest ((1, ty) :: caps) = some r) :
    (Regex.group 1 (Regex.alt (Regex.str "some".toList) (Regex.str "full".toList))).run
      (ty ++ rest) caps k = some r := by
  rcases hty with rfl | rfl
  · rw [run_group, run_alt, run_str_append, take_append_sub, hk]
  · rw [run_group, run_alt, run_str_append, take_append_sub, hk]
    simp [Regex.str, Regex.run]

theorem head_space_append (l u : List Char) (hl : l.head? = some ' ') :
    ∀ x ∈ (l ++ u).head?, isDigitOrDot x = false := by
  intro x hx
  cases l with
  | nil => simp at hl
  | cons y ys =>
    simp at hl hx
    subst hl
    subst hx
    decide

theorem run_record {α : Type} (ty a b c t rest : List Char)
    (hty : ty = "some".toList ∨ ty = "full".toList)
    (ha : a ≠ []) (ha1 : ∀ x ∈ a, isDigitOrDot x = true)
    (hb : b ≠ []) (hb1 : ∀ x ∈ b, isDigitOrDot x = true)
    (hc : c ≠ []) (hc1 : ∀ x ∈ c, isDigitOrDot x = true)
    (ht : t ≠ []) (ht1 : ∀ x ∈ t, isDigit x = true)
    (hrest : ∀ x ∈ rest.head?, isDigit x = false)
    (k : List Char → Caps → Option α) (r : α)
    (hk : k rest [(5, t), (4, c), (3, b), (2, a), (1, ty)] = some r) :
    pressureLineRE.run (recordText ty a b c (t ++ rest)) [] k = some r := by
  unfold pressureLineRE recordText
  rw [run_seq]
  apply run_kind_append _ _ hty
  rw [run_seq_str_append, run_seq]
  refine run_group_plus_append _ _ _ _ ha ha1 ?_ _ _ _ ?_
  · exact head_space_append _ _ rfl
  rw [run_seq_str_append, run_seq]
  refine run_group_plus_append _ _ _ _ hb hb1 ?_ _ _ _ ?_
  · exact head_space_append _ _ rfl
  rw [run_seq_str_append, run_seq]
  refine run_group_plus_append _ _ _ _ hc hc1 ?_ _ _ _ ?_
  · exact head_space_append _ _ rfl
  rw [run_seq_str_append]
  exact run_group_plus_append _ _ _ _ ht ht1 hrest _ _ _ hk

theorem recordText_append (ty a b c t rest : List Char) :
    recordText ty a b c t ++ rest = recordText ty a b c (t ++ rest) := by
  simp [recordText]

theorem matchHere_record (ty a b c t rest : List Char)
    (hty : ty = "some".toList ∨ ty = "full".toList)
    (ha : a ≠ []) (ha1 : ∀ x ∈ a, isDigitOrDot x = true)
    (hb : b ≠ []) (hb1 : ∀ x ∈ b, isDigitOrDot x = true)
    (hc : c ≠ []) (hc1 : ∀ x ∈ c, isDigitOrDot x = true)
    (ht : t ≠ []) (ht1 : ∀ x ∈ t, isDigit x = true)
    (hrest : ∀ x ∈ rest.head?, isDigit x = false) :
    pressureLineRE.matchHere (recordText ty a b c t ++ rest)
      = some ([recordText ty a b c t, ty, a, b, c, t], rest) := by
  unfold Regex.matchHere
  have h := run_record ty a b c t rest hty ha ha1 hb hb1 hc hc1 ht ht1 hrest
    (fun rest1 caps => some ((recordText ty a b c t ++ rest).take
        ((recordText ty a b c t ++ rest).length - rest1.length) ::
      (List.range pressureLineRE.NumSubexp).map (fun i => caps.get (i + 1)), rest1))
    ([recordText ty a b c t, ty, a, b, c, t], rest)
    (by show some _ = _; rw [take_append_sub]; rfl)
  rw [← recordText_append] at h
  exact h

theorem run_str_some {α : Type} (l : List Char) :
    ∀ (s : List Char) (caps : Caps) (k : List Char → Caps → Option α) (r : α),
      (Regex.str l).run s caps k = some r → ∃ s1, s = l ++ s1 ∧ k s1 caps = some r := by
  induction l with
  | nil => intro s caps k r h; exact ⟨s, by simp, by simpa [Regex.str, Regex.run] using h⟩
  | cons c cs ih =>
    intro s caps k r h
    cases s with
    | nil => simp [Regex.str, Regex.run] at h
    | cons x xs =>
      simp only [Regex.str, Regex.run] at h
      by_cases hx : x = c
      · rw [if_pos hx] at h
        obtain ⟨s1, hs1, hk⟩ := ih xs caps k r h
        exact ⟨s1, by simp [hx, hs1], hk⟩
      · rw [if_neg hx] at h; cases h

theorem starCls_sound {α : Type} (p : Char → Bool) (k : List Char → Option α) (r : α) :
    ∀ s : List Char, starCls p s k = some r →
      ∃ a b, s = a ++ b ∧ (∀ c ∈ a, p c = true) ∧ k b = some r := by
  intro s
  induction s with
  | nil => intro h; exact ⟨[], [], rfl, by simp, by simpa [starCls] using h⟩
  | cons x xs ih =>
    intro h
    simp only [starCls] at h
    by_cases hp : p x = true
    · rw [if_pos hp] at h
      cases hrec : starCls p xs k with
      | some r1 =>
        rw [hrec] at h
        simp only [Option.some.injEq] at h
        subst h
        obtain ⟨a, b, hab, ha, hk⟩ := ih hrec
        refine ⟨x :: a, b, by simp [hab], ?_, hk⟩
        intro c hc
        rcases List.mem_cons.mp hc with rfl | hc
        · exact hp
        · exact ha c hc
      | none =>
        rw [hrec] at h
        exact ⟨[], x :: xs, rfl, by simp, h⟩
    · rw [if_neg hp] at h
      exact ⟨[], x :: xs, rfl, by simp, h⟩

theorem starCls_total {α : Type} (p : Char → Bool) (k : List Char → Option α)
    (hk : ∀ s, ∃ r, k s = some r) (s : List Char) :
    starCls p s k = k (s.dropWhile p) := by
  obtain ⟨r, hr⟩ := hk (s.dropWhile p)
  rw [hr]
  exact starCls_greedy p k r s hr

theorem head_dropWhile (p : Char → Bool) :
    ∀ s : List Char, ∀ x ∈ (s.dropWhile p).head?, p x = false := by
  intro s
  induction s with
  | nil => simp
  | cons y ys ih =>
    by_cases hy : p y = true
    · rw [List.dropWhile_cons_of_pos hy]; exact ih
    · rw [List.dropWhile_cons_of_neg hy]
      intro x hx
      simp at hx
      subst hx
      simpa using hy

theorem run_seq_str_some {α : Type} (l : List Char) (re : Regex) (s : List Char) (caps : Caps)
    (k : List Char → Caps → Option α) (r : α)
    (h : (Regex.seq (Regex.str l) re).run s caps k = some r) :
    ∃ s1, s = l ++ s1 ∧ re.run s1 caps k = some r := by
  rw [run_seq] at h
  exact run_str_some l s caps _ r h

theorem run_group_plus_some {α : Type} (i : Nat) (p : Char → Bool) (s : List Char)
    (caps : Caps) (k : List Char → Caps → Option α) (r : α)
    (h : (Regex.group i (Regex.plus p)).run s caps k = some r) :
    ∃ a rest, a ≠ [] ∧ (∀ x ∈ a, p x = true) ∧ s = a ++ rest ∧
      k rest ((i, a) :: caps) = some r := by
  cases s with
  | nil => simp [Regex.run] at h
  | cons x xs =>
    simp only [Regex.run] at h
    by_cases hx : p x = true
    · rw [if_pos hx] at h
      obtain ⟨a, b, hab, ha, hk⟩ := starCls_sound p _ r xs h
      refine ⟨x :: a, b, by simp, ?_, by simp [hab], ?_⟩
      · intro y hy
        rcases List.mem_cons.mp hy with rfl | hy
        · exact hx
        · exact ha y hy
      · subst hab
        have := take_append_sub (x :: a) b
        simp only [List.cons_append] at this
        rw [this] at hk
        exact hk
    · rw [if_neg hx] at h; cases h

theorem run_group_plus_last {α : Type} (i : Nat) (p : Char → Bool) (s : List Char)
    (caps : Caps) (k : List Char → Caps → Option α) (hk : ∀ s caps, ∃ r, k s caps = some r)
    (r : α) (h : (Regex.group i (Regex.plus p)).run s caps k = some r) :
    ∃ a rest, a ≠ [] ∧ (∀ x ∈ a, p x = true) ∧ s = a ++ rest ∧
      (∀ x ∈ rest.head?, p x = false) ∧ k rest ((i, a) :: caps) = some r := by
  cases s with
  | nil => simp [Regex.run] at h
  | cons x xs =>
    simp only [Regex.run] at h
    by_cases hx : p x = true
    · rw [if_pos hx] at h
      rw [starCls_total p _ (fun s => hk s _) xs] at h
      have hsplit : x :: xs = (x :: xs.takeWhile p) ++ xs.dropWhile p := by
        simp [List.takeWhile_append_dropWhile]
      refine ⟨x :: xs.takeWhile p, xs.dropWhile p, by simp, ?_, hsplit, head_dropWhile p xs, ?_⟩
      · intro y hy
        rcases List.mem_cons.mp hy with rfl | hy
        · exact hx
        · exact List.mem_takeWhile_imp hy
      · have := take_append_sub (x :: xs.takeWhile p) (xs.dropWhile p)
        rw [← hsplit] at this
        rw [this] at h
        exact h
    · rw [if_neg hx] at h; cases h

theorem run_kind_some {α : Type} (s : List Char) (caps : Caps)
    (k : List Char → Caps → Option α) (r : α)
    (h : (Regex.group 1 (Regex.alt (Regex.str "some".toList) (Regex.str "full".toList))).run
      s caps k = some r) :
    ∃ ty rest, (ty = "some".toList ∨ ty = "full".toList) ∧ s = ty ++ rest ∧
      k rest ((1, ty) :: caps) = some r := by
  rw [run_group, run_alt] at h
  cases h1 : (Regex.str "some".toList).run s caps
      (fun s1 caps1 => k s1 ((1, s.take (s.length - s1.length)) :: caps1)) with
  | some r1 =>
    rw [h1] at h
    simp only [Option.some.injEq] at h
    subst h
    obtain ⟨s1, hs, hk⟩ := run_str_some _ _ _ _ _ h1
    subst hs
    rw [take_append_sub] at hk
    exact ⟨_, s1, Or.inl rfl, rfl, hk⟩
  | none =>
    rw [h1] at h
    simp only at h
    obtain ⟨s1, hs, hk⟩ := run_str_some _ _ _ _ _ h
    subst hs
    rw [take_append_sub] at hk
    exact ⟨_, s1, Or.inr rfl, rfl, hk⟩

theorem matchHere_sound (s : List Char) (m : List (List Char)) (rest : List Char)
    (h : pressureLineRE.matchHere s = some (m, rest)) :
    ∃ ty a b c t, (ty = "some".toList ∨ ty = "full".toList) ∧
      a ≠ [] ∧ (∀ x ∈ a, isDigitOrDot x = true) ∧
      b ≠ [] ∧ (∀ x ∈ b, isDigitOrDot x = true) ∧
      c ≠ [] ∧ (∀ x ∈ c, isDigitOrDot x = true) ∧
      t ≠ [] ∧ (∀ x ∈ t, isDigit x = true) ∧
      (∀ x ∈ rest.head?, isDigit x = false) ∧
      s = recordText ty a b c t ++ rest ∧ m = [recordText ty a b c t, ty, a, b, c, t] := by
  unfold Regex.matchHere at h
  unfold pressureLineRE at h
  rw [run_seq] at h
  obtain ⟨ty, s1, hty, hs, h⟩ := run_kind_some _ _ _ _ h
  obtain ⟨s2, hs1, h⟩ := run_seq_str_some _ _ _ _ _ _ h
  rw [run_seq] at h
  obtain ⟨a, s3, ha, ha1, hs2, h⟩ := run_group_plus_some _ _ _ _ _ _ h
  obtain ⟨s4, hs3, h⟩ := run_seq_str_some _ _ _ _ _ _ h
  rw [run_seq] at h
  obtain ⟨b, s5, hb, hb1, hs4, h⟩ := run_group_plus_some _ _ _ _ _ _ h
  obtain ⟨s6, hs5, h⟩ := run_seq_str_some _ _ _ _ _ _ h
  rw [run_seq] at h
  obtain ⟨c, s7, hc, hc1, hs6, h⟩ := run_group_plus_some _ _ _ _ _ _ h
  obtain ⟨s8, hs7, h⟩ := run_seq_str_some _ _ _ _ _ _ h
  obtain ⟨t, s9, ht, ht1, hs8, hrest, h⟩ :=
    run_group_plus_last _ _ _ _ _ (fun s caps => ⟨_, rfl⟩) _ h
  simp only [Option.some.injEq, Prod.mk.injEq] at h
  obtain ⟨hm, hr⟩ := h
  subst hr
  have hs' : s = recordText ty a b c t ++ s9 := by
    rw [hs, hs1, hs2, hs3, hs4, hs5, hs6, hs7, hs8]
    simp [recordText]
  refine ⟨ty, a, b, c, t, hty, ha, ha1, hb, hb1, hc, hc1, ht, ht1, hrest, hs', ?_⟩
  rw [← hm, hs', take_append_sub]
  rfl

/-! ## The scan over a content -/

theorem findAllFrom_skip (re : Regex) :
    ∀ (s : List Char) (n : Nat), re.findAllFrom n s = re.findAllFrom 0 (s.drop n) := by
  intro s
  induction s with
  | nil => intro n; simp [Regex.findAllFrom]
  | cons x xs ih =>
    intro n
    cases n with
    | zero => rfl
    | succ n => simp only [Regex.findAllFrom, List.drop_succ_cons]; exact ih n

theorem findAll_of_match (re : Regex) (w rest : List Char) (m : List (List Char))
    (hw : w ≠ []) (h : re.matchHere (w ++ rest) = some (m, rest)) :
    re.FindAllStringSubmatch (w ++ rest) = m :: re.FindAllStringSubmatch rest := by
  cases w with
  | nil => exact absurd rfl hw
  | cons x xs =>
    unfold Regex.FindAllStringSubmatch
    simp only [List.cons_append] at h ⊢
    simp only [Regex.findAllFrom, h]
    rw [findAllFrom_skip]
    have hlen : (x :: (xs ++ rest)).length - rest.length - 1 = xs.length := by
      simp only [List.length_cons, List.length_append]
      omega
    rw [hlen, List.drop_left]

theorem findAll_of_none (re : Regex) (x : Char) (xs : List Char)
    (h : re.matchHere (x :: xs) = none) :
    re.FindAllStringSubmatch (x :: xs) = re.FindAllStringSubmatch xs := by
  unfold Regex.FindAllStringSubmatch
  simp only [Regex.findAllFrom, h]

theorem findAll_nil (re : Regex) : re.FindAllStringSubmatch [] = [] := rfl

theorem recordText_ne_nil (ty a b c t : List Char) : recordText ty a b c t ≠ [] := by
  simp [recordText]

theorem findAll_cases (s : List Char) :
    (s = [] ∧ pressureLineRE.FindAllStringSubmatch s = []) ∨
    (∃ x xs, s = x :: xs ∧ pressureLineRE.matchHere s = none ∧
      pressureLineRE.FindAllStringSubmatch s = pressureLineRE.FindAllStringSubmatch xs) ∨
    (∃ m rest w, IsRecord m ∧ m.head? = some w ∧ w ≠ [] ∧ s = w ++ rest ∧
      (∀ x ∈ rest.head?, isDigit x = false) ∧
      pressureLineRE.matchHere s = some (m, rest) ∧
      pressureLineRE.FindAllStringSubmatch s = m :: pressureLineRE.FindAllStringSubmatch rest) := by
  cases s with
  | nil => exact Or.inl ⟨rfl, rfl⟩
  | cons x xs =>
    right
    cases h : pressureLineRE.matchHere (x :: xs) with
    | none => exact Or.inl ⟨x, xs, rfl, rfl, findAll_of_none _ _ _ h⟩
    | some r =>
      obtain ⟨m, rest⟩ := r
      right
      obtain ⟨ty, a, b, c, t, hty, ha, ha1, hb, hb1, hc, hc1, ht, ht1, hrest, hs, hm⟩ :=
        matchHere_sound _ _ _ h
      refine ⟨m, rest, recordText ty a b c t,
        ⟨ty, a, b, c, t, hty, ha, ha1, hb, hb1, hc, hc1, ht, ht1, hm⟩, by simp [hm],
        recordText_ne_nil _ _ _ _ _, hs, hrest, rfl, ?_⟩
      rw [hs] at h ⊢
      exact findAll_of_match _ _ _ _ (recordText_ne_nil _ _ _ _ _) h

theorem findAll_isRecord :
    ∀ (n : Nat) (s : List Char), s.length ≤ n →
      ∀ m ∈ pressureLineRE.FindAllStringSubmatch s, IsRecord m := by
  intro n
  induction n with
  | zero =>
    intro s hs m hm
    have : s = [] := List.length_eq_zero.mp (Nat.le_zero.mp hs)
    subst this
    simp [findAll_nil] at hm
  | succ n ih =>
    intro s hs m hm
    rcases findAll_cases s with ⟨rfl, h⟩ | ⟨x, xs, rfl, _, h⟩ | ⟨m1, rest, w, hrec, _, hw, rfl, _, _, h⟩
    · simp [findAll_nil] at hm
    · rw [h] at hm
      exact ih xs (by simpa using hs) m hm
    · rw [h] at hm
      rcases List.mem_cons.mp hm with rfl | hm
      · exact hrec
      · refine ih rest ?_ m hm
        have : 0 < w.length := List.length_pos.mpr hw
        simp at hs
        omega

theorem newline_not_mem_record (ty a b c t : List Char)
    (hty : ty = "some".toList ∨ ty = "full".toList)
    (ha1 : ∀ x ∈ a, isDigitOrDot x = true) (hb1 : ∀ x ∈ b, isDigitOrDot x = true)
    (hc1 : ∀ x ∈ c, isDigitOrDot x = true) (ht1 : ∀ x ∈ t, isDigit x = true) :
    '\n' ∉ recordText ty a b c t := by
  intro h
  simp only [recordText, List.mem_append] at h
  have hd : isDigitOrDot '\n' = false := by decide
  have hd1 : isDigit '\n' = false := by decide
  rcases h with h | h | h | h | h | h | h | h | h
  · rcases hty with rfl | rfl <;> revert h <;> decide
  · revert h; decide
  · rw [ha1 _ h] at hd; cases hd
  · revert h; decide
  · rw [hb1 _ h] at hd; cases hd
  · revert h; decide
  · rw [hc1 _ h] at hd; cases hd
  · revert h; decide
  · rw [ht1 _ h] at hd1; cases hd1

theorem append_eq_append_sep (w rest s b : List Char) (sep : Char) (hsep : sep ∉ w)
    (h : w ++ rest = s ++ sep :: b) : ∃ r0, s = w ++ r0 ∧ rest = r0 ++ sep :: b := by
  rcases List.append_eq_append_iff.mp h with ⟨a1, hs, hr⟩ | ⟨c1, hw, hr⟩
  · exact ⟨a1, hs, hr⟩
  · cases c1 with
    | nil => exact ⟨[], by simpa using hw.symm, by simpa using hr.symm⟩
    | cons y ys =>
      simp only [List.cons_append, List.cons.injEq] at hr
      exfalso
      apply hsep
      rw [hw, hr.1]
      simp

theorem head_append_newline (rest b : List Char) (h : ∀ x ∈ rest.head?, isDigit x = false) :
    ∀ x ∈ (rest ++ '\n' :: b).head?, isDigit x = false := by
  cases rest with
  | nil =>
    intro x hx
    simp at hx
    subst hx
    decide
  | cons y ys => simpa using h

theorem matchHere_append_newline (s b : List Char) :
    pressureLineRE.matchHere (s ++ '\n' :: b)
      = (pressureLineRE.matchHere s).map (fun r => (r.1, r.2 ++ '\n' :: b)) := by
  cases h : pressureLineRE.matchHere s with
  | some r =>
    obtain ⟨m, rest⟩ := r
    obtain ⟨ty, a, b1, c, t, hty, ha, ha1, hb, hb1, hc, hc1, ht, ht1, hrest, hs, hm⟩ :=
      matchHere_sound _ _ _ h
    subst hs hm
    rw [List.append_assoc]
    simp only [Option.map_some']
    exact matchHere_record ty a b1 c t _ hty ha ha1 hb hb1 hc hc1 ht ht1
      (head_append_newline _ _ hrest)
  | none =>
    simp only [Option.map_none']
    cases h2 : pressureLineRE.matchHere (s ++ '\n' :: b) with
    | none => rfl
    | some r =>
      exfalso
      obtain ⟨m, rest⟩ := r
      obtain ⟨ty, a, b1, c, t, hty, ha, ha1, hb, hb1, hc, hc1, ht, ht1, hrest, hs, hm⟩ :=
        matchHere_sound _ _ _ h2
      obtain ⟨r0, hs0, hr0⟩ := append_eq_append_sep _ _ _ _ _
        (newline_not_mem_record ty a b1 c t hty ha1 hb1 hc1 ht1) hs.symm
      have hr0h : ∀ x ∈ r0.head?, isDigit x = false := by
        cases r0 with
        | nil => simp
        | cons y ys =>
          rw [hr0] at hrest
          simpa using hrest
      have := matchHere_record ty a b1 c t r0 hty ha ha1 hb hb1 hc hc1 ht ht1 hr0h
      rw [← hs0, h] at this
      cases this

theorem findAll_append_newline :
    ∀ (n : Nat) (s : List Char), s.length ≤ n → ∀ b : List Char,
      pressureLineRE.FindAllStringSubmatch (s ++ '\n' :: b)
        = pressureLineRE.FindAllStringSubmatch s ++ pressureLineRE.FindAllStringSubmatch b := by
  intro n
  induction n with
  | zero =>
    intro s hs b
    have : s = [] := List.length_eq_zero.mp (Nat.le_zero.mp hs)
    subst this
    have hnone : pressureLineRE.matchHere ('\n' :: b) = none := by
      have := matchHere_append_newline [] b
      simpa using this
    simp [findAll_nil, findAll_of_none _ _ _ hnone]
  | succ n ih =>
    intro s hs b
    rcases findAll_cases s with ⟨rfl, h⟩ | ⟨x, xs, rfl, hnone, h⟩ |
      ⟨m1, rest, w, hrec, _, hw, rfl, _, hsome, h⟩
    · exact ih [] (by simp) b
    · have h2 : pressureLineRE.matchHere (x :: (xs ++ '\n' :: b)) = none := by
        have := matchHere_append_newline (x :: xs) b
        rw [hnone] at this
        simpa using this
      rw [h, List.cons_append, findAll_of_none _ _ _ h2]
      exact ih xs (by simpa using hs) b
    · have h2 := matchHere_append_newline (w ++ rest) b
      rw [hsome, List.append_assoc] at h2
      simp only [Option.map_some'] at h2
      rw [h, List.append_assoc, findAll_of_match _ _ _ _ hw h2, List.cons_append]
      congr 1
      refine ih rest ?_ b
      have : 0 < w.length := List.length_pos.mpr hw
      simp at hs
      omega

/-! ## The loop body -/

theorem loop_nil (resource : List Char) (result : ResourcePressure) :
    pressureLoop resource result [] =
      if result.Some = none ∧ result.Full = none then
        (result, some ("could not parse pressure file for ".toList ++ resource))
      else (result, none) := by
  rw [pressureLoop]

theorem loop_cons_some (resource : List Char) (result : ResourcePressure)
    (m : List (List Char)) (ms : List (List (List Char)))
    (hc : Converts m) (hty : field m "type" = "some".toList) :
    pressureLoop resource result (m :: ms)
      = pressureLoop resource { result with Some := some (measurementOf m) } ms := by
  obtain ⟨h1, h2, h3, h4⟩ := hc
  unfold field at h1 h2 h3 h4 hty
  rw [pressureLoop]
  simp only [h1, h2, h3, h4, hty, if_true]
  rfl

theorem loop_cons_full (resource : List Char) (result : ResourcePressure)
    (m : List (List Char)) (ms : List (List (List Char)))
    (hc : Converts m) (hty : field m "type" = "full".toList) :
    pressureLoop resource result (m :: ms)
      = pressureLoop resource { result with Full := some (measurementOf m) } ms := by
  obtain ⟨h1, h2, h3, h4⟩ := hc
  unfold field at h1 h2 h3 h4 hty
  have hne : ¬ ("full".toList = "some".toList) := by decide
  rw [pressureLoop]
  simp only [h1, h2, h3, h4, hty, hne, if_true, if_false]
  rfl

theorem field_record (w ty a b c t : List Char) :
    field [w, ty, a, b, c, t] "type" = ty ∧ field [w, ty, a, b, c, t] "avg10" = a ∧
    field [w, ty, a, b, c, t] "avg60" = b ∧ field [w, ty, a, b, c, t] "avg300" = c ∧
    field [w, ty, a, b, c, t] "total" = t :=
  ⟨rfl, rfl, rfl, rfl, rfl⟩

theorem convError_none_iff (m : List (List Char)) : convError m = none ↔ Converts m := by
  unfold convError Converts
  cases h1 : (ParseUint (field m "total") 10 64).2 <;>
  cases h2 : (ParseFloat (field m "avg10")).2 <;>
  cases h3 : (ParseFloat (field m "avg60")).2 <;>
  cases h4 : (ParseFloat (field m "avg300")).2 <;> simp

theorem loop_cons_error (resource : List Char) (result : ResourcePressure)
    (m : List (List Char)) (ms : List (List (List Char))) (e : GoError)
    (he : convError m = some e) :
    pressureLoop resource result (m :: ms) = (result, some e) := by
  unfold convError field at he
  rw [pressureLoop]
  cases h1 : (ParseUint (elemAt (elementsOf m) "total".toList) 10 64).2 with
  | some e1 =>
    rw [h1] at he; simp only [Option.some.injEq] at he; simp only [h1, he]
  | none =>
  rw [h1] at he
  cases h2 : (ParseFloat (elemAt (elementsOf m) "avg10".toList)).2 with
  | some e1 =>
    rw [h2] at he; simp only [Option.some.injEq] at he; simp only [h1, h2, he]
  | none =>
  rw [h2] at he
  cases h3 : (ParseFloat (elemAt (elementsOf m) "avg60".toList)).2 with
  | some e1 =>
    rw [h3] at he; simp only [Option.some.injEq] at he; simp only [h1, h2, h3, he]
  | none =>
  rw [h3] at he
  cases h4 : (ParseFloat (elemAt (elementsOf m) "avg300".toList)).2 with
  | some e1 =>
    rw [h4] at he; simp only [Option.some.injEq] at he; simp only [h1, h2, h3, h4, he]
  | none => rw [h4] at he; cases he

theorem loop_cons_unknown (resource : List Char) (result : ResourcePressure)
    (m : List (List Char)) (ms : List (List (List Char)))
    (hc : Converts m) (hs : field m "type" ≠ "some".toList)
    (hf : field m "type" ≠ "full".toList) :
    pressureLoop resource result (m :: ms)
      = (result, some ("unknown pressure measurement type ".toList ++ field m "type")) := by
  obtain ⟨h1, h2, h3, h4⟩ := hc
  unfold field at h1 h2 h3 h4 hs hf ⊢
  rw [pressureLoop]
  simp only [h1, h2, h3, h4, hs, hf, if_false]

/-- The four ways one pass of the loop body can end. -/
theorem loop_cons_cases (resource : List Char) (result : ResourcePressure)
    (m : List (List Char)) (ms : List (List (List Char))) :
    (∃ e, convError m = some e ∧ pressureLoop resource result (m :: ms) = (result, some e)) ∨
    (Converts m ∧ field m "type" = "some".toList ∧
      pressureLoop resource result (m :: ms)
        = pressureLoop resource { result with Some := some (measurementOf m) } ms) ∨
    (Converts m ∧ field m "type" = "full".toList ∧
      pressureLoop resource result (m :: ms)
        = pressureLoop resource { result with Full := some (measurementOf m) } ms) ∨
    (Converts m ∧ field m "type" ≠ "some".toList ∧ field m "type" ≠ "full".toList ∧
      pressureLoop resource result (m :: ms)
        = (result, some ("unknown pressure measurement type ".toList ++ field m "type"))) := by
  cases he : convError m with
  | some e => exact Or.inl ⟨e, rfl, loop_cons_error _ _ _ _ _ he⟩
  | none =>
    have hc := (convError_none_iff m).mp he
    by_cases hs : field m "type" = "some".toList
    · exact Or.inr (Or.inl ⟨hc, hs, loop_cons_some _ _ _ _ hc hs⟩)
    · by_cases hf : field m "type" = "full".toList
      · exact Or.inr (Or.inr (Or.inl ⟨hc, hf, loop_cons_full _ _ _ _ hc hf⟩))
      · exact Or.inr (Or.inr (Or.inr ⟨hc, hs, hf, loop_cons_unknown _ _ _ _ hc hs hf⟩))

theorem isRecord_type (m : List (List Char)) (h : IsRecord m) :
    field m "type" = "some".toList ∨ field m "type" = "full".toList := by
  obtain ⟨ty, a, b, c, t, hty, _, _, _, _, _, _, _, _, rfl⟩ := h
  exact hty

theorem loop_cons_store (resource : List Char) (result : ResourcePressure)
    (m : List (List Char)) (ms : List (List (List Char)))
    (hr : IsRecord m) (hc : Converts m) :
    pressureLoop resource result (m :: ms) = pressureLoop resource (storeRecord result m) ms := by
  unfold storeRecord
  rcases isRecord_type m hr with hs | hf
  · rw [if_pos hs]; exact loop_cons_some _ _ _ _ hc hs
  · have hne : field m "type" ≠ "some".toList := by rw [hf]; decide
    rw [if_neg hne]; exact loop_cons_full _ _ _ _ hc hf

theorem loop_all_convert (resource : List Char) :
    ∀ (ms : List (List (List Char))) (result : ResourcePressure),
      (∀ m ∈ ms, IsRecord m ∧ Converts m) →
      pressureLoop resource result ms = pressureLoop resource (ms.foldl storeRecord result) [] := by
  intro ms
  induction ms with
  | nil => intro result _; rfl
  | cons m ms ih =>
    intro result h
    rw [loop_cons_store _ _ _ _ (h m (by simp)).1 (h m (by simp)).2, List.foldl_cons]
    exact ih _ (fun x hx => h x (by simp [hx]))

/-! ## Contents made of valid lines -/

theorem isDigitOrDot_of_isDigit (x : Char) (h : isDigit x = true) : isDigitOrDot x = true := by
  simp [isDigitOrDot, h]

theorem isDecimalText_run (s : List Char) (h : isDecimalText s = true) :
    s ≠ [] ∧ ∀ x ∈ s, isDigitOrDot x = true := by
  unfold isDecimalText at h
  have hsplit := List.takeWhile_append_dropWhile isDigit s
  cases hd : s.dropWhile isDigit with
  | nil =>
    rw [hd] at h hsplit
    constructor
    · intro hs; simp [hs] at h
    · intro x hx
      rw [← hsplit] at hx
      simp only [List.append_nil] at hx
      exact isDigitOrDot_of_isDigit x (List.mem_takeWhile_imp hx)
  | cons c fp =>
    rw [hd] at h hsplit
    simp only [Bool.and_eq_true, beq_iff_eq, Bool.not_eq_true', List.all_eq_true] at h
    obtain ⟨⟨⟨hc, _⟩, _⟩, hfp⟩ := h
    constructor
    · intro hs; rw [hs] at hd; simp at hd
    · intro x hx
      rw [← hsplit] at hx
      rcases List.mem_append.mp hx with hx | hx
      · exact isDigitOrDot_of_isDigit x (List.mem_takeWhile_imp hx)
      · rcases List.mem_cons.mp hx with rfl | hx
        · subst hc; decide
        · exact isDigitOrDot_of_isDigit x (hfp x hx)

theorem findAll_line (ty a b c t tail : List Char)
    (hty : ty = "some".toList ∨ ty = "full".toList)
    (ha : a ≠ []) (ha1 : ∀ x ∈ a, isDigitOrDot x = true)
    (hb : b ≠ []) (hb1 : ∀ x ∈ b, isDigitOrDot x = true)
    (hc : c ≠ []) (hc1 : ∀ x ∈ c, isDigitOrDot x = true)
    (ht : t ≠ []) (ht1 : ∀ x ∈ t, isDigit x = true)
    (htail : ∀ x ∈ tail.head?, isDigit x = false) :
    pressureLineRE.FindAllStringSubmatch (recordText ty a b c t ++ tail)
      = [recordText ty a b c t, ty, a, b, c, t] :: pressureLineRE.FindAllStringSubmatch tail :=
  findAll_of_match _ _ _ _ (recordText_ne_nil _ _ _ _ _)
    (matchHere_record ty a b c t tail hty ha ha1 hb hb1 hc hc1 ht ht1 htail)

/-- A valid line, alone or followed by text that starts with a newline. -/
theorem findAll_valid_line (ty a b c t : List Char)
    (hty : ty = "some".toList ∨ ty = "full".toList) (hv : ValidFields a b c t)
    (tail : List Char) (htail : ∀ x ∈ tail.head?, isDigit x = false) :
    pressureLineRE.FindAllStringSubmatch (recordText ty a b c t ++ tail)
      = [recordText ty a b c t, ty, a, b, c, t] :: pressureLineRE.FindAllStringSubmatch tail := by
  obtain ⟨h1, h2, h3, h4, h5, _⟩ := hv
  exact findAll_line ty a b c t tail hty (isDecimalText_run a h1).1 (isDecimalText_run a h1).2
    (isDecimalText_run b h2).1 (isDecimalText_run b h2).2
    (isDecimalText_run c h3).1 (isDecimalText_run c h3).2 h4
    (by simpa [List.all_eq_true] using h5) htail

theorem converts_record (w ty a b c t : List Char)
    (h : (ParseUint t 10 64).2 = none ∧ (ParseFloat a).2 = none ∧
      (ParseFloat b).2 = none ∧ (ParseFloat c).2 = none) :
    Converts [w, ty, a, b, c, t] := h

theorem findAll_newline_tail (tail : List Char) (h : tail = [] ∨ tail = ['\n']) :
    pressureLineRE.FindAllStringSubmatch tail = [] ∧ ∀ x ∈ tail.head?, isDigit x = false := by
  rcases h with rfl | rfl
  · exact ⟨rfl, by simp⟩
  · exact ⟨by decide, by decide⟩

/-- C1. A content that consists of exactly one valid `some` line and one valid
`full` line, in either order, with or without a final newline: the parse returns
no error and both measurements, each holding the converted values of the four
field texts of the line of its kind. -/
theorem both_lines_parsed (fs : FS) (resource content a1 b1 c1 t1 a2 b2 c2 t2 tail : List Char)
    (hsome : ValidFields a1 b1 c1 t1) (hfull : ValidFields a2 b2 c2 t2)
    (htail : tail = [] ∨ tail = ['\n'])
    (hcontent :
      content = recordText "some".toList a1 b1 c1 t1 ++ '\n' ::
        (recordText "full".toList a2 b2 c2 t2 ++ tail) ∨
      content = recordText "full".toList a2 b2 c2 t2 ++ '\n' ::
        (recordText "some".toList a1 b1 c1 t1 ++ tail))
    (hread : fs.ReadFile resource = Except.ok content) :
    NewResourcePressure fs resource =
      ({ Resource := resource
         Full := some (convertedFields a2 b2 c2 t2)
         Some := some (convertedFields a1 b1 c1 t1) }, none) := by
  obtain ⟨htl, hhd⟩ := findAll_newline_tail tail htail
  have hS := findAll_valid_line _ a1 b1 c1 t1 (Or.inl rfl) hsome
  have hF := findAll_valid_line _ a2 b2 c2 t2 (Or.inr rfl) hfull
  have cS := converts_record (recordText "some".toList a1 b1 c1 t1) "some".toList a1 b1 c1 t1
    hsome.2.2.2.2.2
  have cF := converts_record (recordText "full".toList a2 b2 c2 t2) "full".toList a2 b2 c2 t2
    hfull.2.2.2.2.2
  unfold NewResourcePressure
  rw [hread]
  simp only
  rcases hcontent with rfl | rfl
  · rw [findAll_append_newline _ _ (le_refl _), hF tail hhd, htl]
    have h0 := hS [] (by simp)
    rw [List.append_nil] at h0
    rw [h0, findAll_nil]
    simp only [List.singleton_append]
    rw [loop_cons_some _ _ _ _ cS rfl, loop_cons_full _ _ _ _ cF rfl, loop_nil]
    rfl
  · rw [findAll_append_newline _ _ (le_refl _), hS tail hhd, htl]
    have h0 := hF [] (by simp)
    rw [List.append_nil] at h0
    rw [h0, findAll_nil]
    simp only [List.singleton_append]
    rw [loop_cons_full _ _ _ _ cF rfl, loop_cons_some _ _ _ _ cS rfl, loop_nil]
    rfl

/-! ## Claims C1 to C3 -/

theorem newResourcePressure_ok (fs : FS) (resource data : List Char)
    (hread : fs.ReadFile resource = Except.ok data) :
    NewResourcePressure fs resource =
      pressureLoop resource { Resource := resource, Full := none, Some := none }
        (pressureLineRE.FindAllStringSubmatch data) := by
  unfold NewResourcePressure
  rw [hread]

theorem newResourcePressure_error (fs : FS) (resource err : List Char)
    (hread : fs.ReadFile resource = Except.error err) :
    NewResourcePressure fs resource =
      ({ Resource := resource, Full := none, Some := none }, some err) := by
  unfold NewResourcePressure
  rw [hread]

theorem both_lines_parsed_witness :
    ValidFields "0.00".toList "0.00".toList "10.3".toList "6164237".toList ∧
    ValidFields "0.01".toList "0.00".toList "0.00".toList "5933015".toList ∧
    NewResourcePressure
      ⟨fun _ => Except.ok ("full avg10=0.01 avg60=0.00 avg300=0.00 total=5933015\n" ++
        "some avg10=0.00 avg60=0.00 avg300=10.3 total=6164237\n").toList⟩ "io".toList =
      ({ Resource := "io".toList
         Full := some (convertedFields "0.01".toList "0.00".toList "0.00".toList "5933015".toList)
         Some := some (convertedFields "0.00".toList "0.00".toList "10.3".toList "6164237".toList) },
        none) ∧
    (convertedFields "0.01".toList "0.00".toList "0.00".toList "5933015".toList).TotalMicroseconds
      = 5933015 ∧
    (convertedFields "0.00".toList "0.00".toList "10.3".toList "6164237".toList).TotalMicroseconds
      = 6164237 :=
  ⟨by decide, by decide,
    both_lines_parsed _ _ _ _ _ _ _ _ _ _ _ ['\n'] (by decide) (by decide) (Or.inr rfl)
      (Or.inr rfl) rfl,
    by decide, by decide⟩

/-- C2, the claim as stated fails. Each of these two contents contains a valid
`some` line and no line that starts with `full`. In the first a second `some`
line with `avg10=1.2.3` is recognised and the parse returns its conversion
error; in the second the pattern matches inside the line `zfull ...` and `Full`
is populated. -/
theorem some_line_counterexample :
    ValidFields "0.00".toList "0.00".toList "5.0".toList "29151915".toList ∧
    (recordText "some".toList "0.00".toList "0.00".toList "5.0".toList "29151915".toList
      ∈ linesOf ("some avg10=0.00 avg60=0.00 avg300=5.0 total=29151915\n" ++
        "some avg10=1.2.3 avg60=0 avg300=0 total=1\n").toList ∧
     (∀ line ∈ linesOf ("some avg10=0.00 avg60=0.00 avg300=5.0 total=29151915\n" ++
        "some avg10=1.2.3 avg60=0 avg300=0 total=1\n").toList,
        ("full".toList).isPrefixOf line = false) ∧
     (NewResourcePressure
        ⟨fun _ => Except.ok ("some avg10=0.00 avg60=0.00 avg300=5.0 total=29151915\n" ++
          "some avg10=1.2.3 avg60=0 avg300=0 total=1\n").toList⟩ "cpu".toList).2
        = some ("could not parse avg10 1.2.3: strconv.ParseFloat: parsing \"1.2.3\": " ++
            "invalid syntax").toList) ∧
    (recordText "some".toList "0.00".toList "0.00".toList "5.0".toList "29151915".toList
      ∈ linesOf ("some avg10=0.00 avg60=0.00 avg300=5.0 total=29151915\n" ++
        "zfull avg10=0 avg60=0 avg300=0 total=1\n").toList ∧
     (∀ line ∈ linesOf ("some avg10=0.00 avg60=0.00 avg300=5.0 total=29151915\n" ++
        "zfull avg10=0 avg60=0 avg300=0 total=1\n").toList,
        ("full".toList).isPrefixOf line = false) ∧
     (NewResourcePressure
        ⟨fun _ => Except.ok ("some avg10=0.00 avg60=0.00 avg300=5.0 total=29151915\n" ++
          "zfull avg10=0 avg60=0 avg300=0 total=1\n").toList⟩ "cpu".toList).1.Full
        = some (convertedFields "0".toList "0".toList "0".toList "1".toList)) := by
  refine ⟨by decide, ⟨by decide, by decide, by decide⟩, ⟨by decide, by decide, by decide⟩⟩

/-- C2, amended. A content that holds one valid `some` line, on a line of its
own, and in which the pattern recognises nothing else (so no `full` record, the
CPU case): the parse returns no error, `Full` is absent and `Some` holds the
converted values of that line. -/
theorem some_line_only (fs : FS) (resource content pre post a b c t : List Char)
    (hv : ValidFields a b c t)
    (hpre : pre = [] ∨ ∃ p, pre = p ++ ['\n'])
    (hpost : post = [] ∨ ∃ q, post = '\n' :: q)
    (hpre0 : pressureLineRE.FindAllStringSubmatch pre = [])
    (hpost0 : pressureLineRE.FindAllStringSubmatch post = [])
    (hcontent : content = pre ++ (recordText "some".toList a b c t ++ post))
    (hread : fs.ReadFile resource = Except.ok content) :
    NewResourcePressure fs resource =
      ({ Resource := resource, Full := none, Some := some (convertedFields a b c t) }, none) := by
  have hline : pressureLineRE.FindAllStringSubmatch (recordText "some".toList a b c t ++ post)
      = [[recordText "some".toList a b c t, "some".toList, a, b, c, t]] := by
    have hhd : ∀ x ∈ post.head?, isDigit x = false := by
      rcases hpost with rfl | ⟨q, rfl⟩
      · simp
      · intro x hx
        simp at hx
        subst hx
        decide
    rw [findAll_valid_line _ a b c t (Or.inl rfl) hv post hhd, hpost0]
  have hall : pressureLineRE.FindAllStringSubmatch content
      = [[recordText "some".toList a b c t, "some".toList, a, b, c, t]] := by
    rw [hcontent]
    rcases hpre with rfl | ⟨p, rfl⟩
    · simpa using hline
    · have hp : pressureLineRE.FindAllStringSubmatch p = [] := by
        have := findAll_append_newline _ p (le_refl _) []
        rw [hpre0, findAll_nil, List.append_nil] at this
        exact this.symm
      rw [List.append_assoc, List.singleton_append, findAll_append_newline _ _ (le_refl _),
        hp, hline, List.nil_append]
  have cS := converts_record (recordText "some".toList a b c t) "some".toList a b c t
    hv.2.2.2.2.2
  rw [newResourcePressure_ok fs resource content hread, hall,
    loop_cons_some _ _ _ _ cS rfl, loop_nil]
  rfl

theorem some_line_only_witness :
    ValidFields "0.00".toList "0.00".toList "5.0".toList "29151915".toList ∧
    NewResourcePressure
      ⟨fun _ => Except.ok "some avg10=0.00 avg60=0.00 avg300=5.0 total=29151915\n".toList⟩
      "cpu".toList =
      ({ Resource := "cpu".toList, Full := none
         Some := some (convertedFields "0.00".toList "0.00".toList "5.0".toList
           "29151915".toList) }, none) ∧
    (convertedFields "0.00".toList "0.00".toList "5.0".toList
      "29151915".toList).TotalMicroseconds = 29151915 :=
  ⟨by decide,
    some_line_only _ _ _ [] ['\n'] _ _ _ _ (by decide) (Or.inl rfl) (Or.inr ⟨[], rfl⟩)
      (by decide) (by decide) rfl rfl,
    by decide⟩

theorem loop_success_has_measurement (resource : List Char) :
    ∀ (ms : List (List (List Char))) (result : ResourcePressure),
      (pressureLoop resource result ms).2 = none →
      (pressureLoop resource result ms).1.Some ≠ none ∨
      (pressureLoop resource result ms).1.Full ≠ none := by
  intro ms
  induction ms with
  | nil =>
    intro result h
    rw [loop_nil] at h ⊢
    by_cases hb : result.Some = none ∧ result.Full = none
    · rw [if_pos hb] at h; cases h
    · rw [if_neg hb]
      by_cases hs : result.Some = none
      · exact Or.inr (fun hf => hb ⟨hs, hf⟩)
      · exact Or.inl hs
  | cons m ms ih =>
    intro result h
    rcases loop_cons_cases resource result m ms with ⟨e, _, he⟩ | ⟨_, _, he⟩ | ⟨_, _, he⟩ |
      ⟨_, _, _, he⟩
    · rw [he] at h; cases h
    · rw [he] at h ⊢; exact ih _ h
    · rw [he] at h ⊢; exact ih _ h
    · rw [he] at h; cases h

/-- C3. Whatever the resource name and the content, a return without error
carries at least one of `Some` and `Full`: a result with both absent is never
returned successfully. -/
theorem success_has_measurement (fs : FS) (resource : List Char)
    (h : (NewResourcePressure fs resource).2 = none) :
    (NewResourcePressure fs resource).1.Some ≠ none ∨
    (NewResourcePressure fs resource).1.Full ≠ none := by
  cases hr : fs.ReadFile resource with
  | error err => rw [newResourcePressure_error fs resource err hr] at h; cases h
  | ok data =>
    rw [newResourcePressure_ok fs resource data hr] at h ⊢
    exact loop_success_has_measurement resource _ _ h

theorem success_has_measurement_witness :
    (NewResourcePressure
      ⟨fun _ => Except.ok "some avg10=0.00 avg60=0.00 avg300=5.0 total=29151915\n".toList⟩
      "cpu".toList).2 = none ∧
    ((NewResourcePressure
      ⟨fun _ => Except.ok "some avg10=0.00 avg60=0.00 avg300=5.0 total=29151915\n".toList⟩
      "cpu".toList).1.Some ≠ none ∨
     (NewResourcePressure
      ⟨fun _ => Except.ok "some avg10=0.00 avg60=0.00 avg300=5.0 total=29151915\n".toList⟩
      "cpu".toList).1.Full ≠ none) :=
  ⟨by decide, success_has_measurement _ _ (by decide)⟩

/-! ## Claim C4 -/

/-- C4, the claim as stated fails. The one line of this content does not have
the record shape (`1.2.3` is not a decimal number), yet the pattern recognises
it and the parse fails with the `avg10` conversion error, not the no-data error. -/
theorem no_data_counterexample :
    (∀ line ∈ linesOf "some avg10=1.2.3 avg60=0.00 avg300=0.00 total=1".toList,
        isRecordLine line = false) ∧
    (NewResourcePressure
        ⟨fun _ => Except.ok "some avg10=1.2.3 avg60=0.00 avg300=0.00 total=1".toList⟩
        "cpu".toList).2
      = some ("could not parse avg10 1.2.3: strconv.ParseFloat: parsing \"1.2.3\": " ++
          "invalid syntax").toList ∧
    (NewResourcePressure
        ⟨fun _ => Except.ok "some avg10=1.2.3 avg60=0.00 avg300=0.00 total=1".toList⟩
        "cpu".toList).2
      ≠ some "could not parse pressure file for cpu".toList := by
  refine ⟨by decide, by decide, by decide⟩

theorem matchHere_occurrence (ty a b c t post : List Char)
    (hty : ty = "some".toList ∨ ty = "full".toList)
    (ha : a ≠ []) (ha1 : ∀ x ∈ a, isDigitOrDot x = true)
    (hb : b ≠ []) (hb1 : ∀ x ∈ b, isDigitOrDot x = true)
    (hc : c ≠ []) (hc1 : ∀ x ∈ c, isDigitOrDot x = true)
    (ht : t ≠ []) (ht1 : ∀ x ∈ t, isDigit x = true) :
    pressureLineRE.matchHere (recordText ty a b c t ++ post) ≠ none := by
  have hsplit := List.takeWhile_append_dropWhile isDigit post
  have h := matchHere_record ty a b c (t ++ post.takeWhile isDigit) (post.dropWhile isDigit)
    hty ha ha1 hb hb1 hc hc1 (by simp [ht])
    (by
      intro x hx
      rcases List.mem_append.mp hx with hx | hx
      · exact ht1 x hx
      · exact List.mem_takeWhile_imp hx)
    (head_dropWhile isDigit post)
  rw [← recordText_append, List.append_assoc, hsplit] at h
  rw [h]
  simp

theorem findAll_ne_nil_of_occurs (content : List Char) (h : RecordOccurs content) :
    pressureLineRE.FindAllStringSubmatch content ≠ [] := by
  obtain ⟨pre, post, ty, a, b, c, t, hty, ha, ha1, hb, hb1, hc, hc1, ht, ht1, rfl⟩ := h
  induction pre with
  | nil =>
    rcases findAll_cases ([] ++ (recordText ty a b c t ++ post)) with ⟨h0, _⟩ | ⟨x, xs, _, hn, _⟩ |
      ⟨m, rest, w, _, _, _, _, _, _, hf⟩
    · exact absurd h0 (by simp [recordText])
    · exact absurd hn (by
        simpa using matchHere_occurrence ty a b c t post hty ha ha1 hb hb1 hc hc1 ht ht1)
    · rw [hf]; simp
  | cons y ys ih =>
    rcases findAll_cases ((y :: ys) ++ (recordText ty a b c t ++ post)) with ⟨h0, _⟩ |
      ⟨x, xs, hx, _, hf⟩ | ⟨m, rest, w, _, _, _, _, _, _, hf⟩
    · simp at h0
    · rw [hf]
      simp only [List.cons_append, List.cons.injEq] at hx
      rw [← hx.2]
      exact ih
    · rw [hf]; simp

theorem occurs_of_findAll_ne_nil (content : List Char)
    (h : pressureLineRE.FindAllStringSubmatch content ≠ []) : RecordOccurs content := by
  induction content with
  | nil => exact absurd (findAll_nil _) h
  | cons y ys ih =>
    rcases findAll_cases (y :: ys) with ⟨h0, _⟩ | ⟨x, xs, hx, _, hf⟩ |
      ⟨m, rest, w, hrec, hw, _, hs, _, _, _⟩
    · cases h0
    · simp only [List.cons.injEq] at hx
      rw [hf, ← hx.2] at h
      obtain ⟨pre, post, ty, a, b, c, t, hty, ha, ha1, hb, hb1, hc, hc1, ht, ht1, hys⟩ := ih h
      exact ⟨y :: pre, post, ty, a, b, c, t, hty, ha, ha1, hb, hb1, hc, hc1, ht, ht1,
        by simp [hys]⟩
    · obtain ⟨ty, a, b, c, t, hty, ha, ha1, hb, hb1, hc, hc1, ht, ht1, rfl⟩ := hrec
      simp only [List.head?_cons, Option.some.injEq] at hw
      subst hw
      exact ⟨[], rest, ty, a, b, c, t, hty, ha, ha1, hb, hb1, hc, hc1, ht, ht1, by simpa using hs⟩

theorem recordOccurs_iff (content : List Char) :
    RecordOccurs content ↔ pressureLineRE.FindAllStringSubmatch content ≠ [] :=
  ⟨findAll_ne_nil_of_occurs content, occurs_of_findAll_ne_nil content⟩

/-- C4, amended. When no text of the shape the pattern recognises occurs in the
content (kind `some` or `full`, the averages non-empty runs of digits and dots,
the total a non-empty run of digits), as in the empty content, the parse fails
with the no-data error naming the requested resource, and no measurement. -/
theorem no_record_no_data (fs : FS) (resource content : List Char)
    (hno : ¬ RecordOccurs content)
    (hread : fs.ReadFile resource = Except.ok content) :
    NewResourcePressure fs resource =
      ({ Resource := resource, Full := none, Some := none },
        some ("could not parse pressure file for ".toList ++ resource)) := by
  have h0 : pressureLineRE.FindAllStringSubmatch content = [] := by
    by_contra hne
    exact hno ((recordOccurs_iff content).mpr hne)
  rw [newResourcePressure_ok fs resource content hread, h0, loop_nil]
  simp

theorem no_record_no_data_witness :
    ¬ RecordOccurs "some avg10=abc avg60=0.00 avg300=0.00 total=1\nfull\n".toList ∧
    NewResourcePressure
      ⟨fun _ => Except.ok "some avg10=abc avg60=0.00 avg300=0.00 total=1\nfull\n".toList⟩
      "memory".toList =
      ({ Resource := "memory".toList, Full := none, Some := none },
        some "could not parse pressure file for memory".toList) :=
  ⟨fun h => (recordOccurs_iff _).mp h (by decide),
    no_record_no_data _ _ _ (fun h => (recordOccurs_iff _).mp h (by decide)) rfl⟩

/-! ## Claim C5 -/

theorem storeRecord_has (result : ResourcePressure) (m : List (List Char)) :
    (storeRecord result m).Some ≠ none ∨ (storeRecord result m).Full ≠ none := by
  unfold storeRecord
  by_cases h : field m "type" = "some".toList
  · rw [if_pos h]; left; simp
  · rw [if_neg h]; right; simp

theorem foldl_store_keeps :
    ∀ (ms : List (List (List Char))) (result : ResourcePressure),
      (result.Some ≠ none ∨ result.Full ≠ none) →
      (ms.foldl storeRecord result).Some ≠ none ∨ (ms.foldl storeRecord result).Full ≠ none := by
  intro ms
  induction ms with
  | nil => intro result h; exact h
  | cons m ms ih => intro result _; exact ih _ (storeRecord_has result m)

theorem foldl_store_has (m : List (List Char)) (ms : List (List (List Char)))
    (result : ResourcePressure) :
    ((m :: ms).foldl storeRecord result).Some ≠ none ∨
    ((m :: ms).foldl storeRecord result).Full ≠ none :=
  foldl_store_keeps ms _ (storeRecord_has result m)

theorem loop_nil_of_has (resource : List Char) (result : ResourcePressure)
    (h : result.Some ≠ none ∨ result.Full ≠ none) :
    pressureLoop resource result [] = (result, none) := by
  rw [loop_nil]
  have : ¬ (result.Some = none ∧ result.Full = none) := by
    rintro ⟨h1, h2⟩
    rcases h with h | h
    · exact h h1
    · exact h h2
  rw [if_neg this]

/-- All records convert and there is at least one: the loop stores each in turn
and the return is successful. -/
theorem loop_all_convert_ok (resource : List Char) (m : List (List Char))
    (ms : List (List (List Char))) (result : ResourcePressure)
    (h : ∀ x ∈ m :: ms, IsRecord x ∧ Converts x) :
    pressureLoop resource result (m :: ms) = ((m :: ms).foldl storeRecord result, none) := by
  rw [loop_all_convert resource _ result h]
  exact loop_nil_of_has resource _ (foldl_store_has m ms result)

theorem loop_error_of_not_converts (resource : List Char) (m : List (List Char)) :
    ∀ (ms : List (List (List Char))) (result : ResourcePressure),
      m ∈ ms → ¬ Converts m → (pressureLoop resource result ms).2 ≠ none := by
  intro ms
  induction ms with
  | nil => intro result hm; simp at hm
  | cons x xs ih =>
    intro result hm hc
    rcases loop_cons_cases resource result x xs with ⟨e, _, he⟩ | ⟨hx, _, he⟩ | ⟨hx, _, he⟩ |
      ⟨_, _, _, he⟩
    · rw [he]; simp
    · rw [he]
      rcases List.mem_cons.mp hm with rfl | hm
      · exact absurd hx hc
      · exact ih _ hm hc
    · rw [he]
      rcases List.mem_cons.mp hm with rfl | hm
      · exact absurd hx hc
      · exact ih _ hm hc
    · rw [he]; simp

/-- C5. With the file read, the parse returns an error exactly when the pattern
recognises no record in the content or some recognised record has a field
(total, avg10, avg60 or avg300) whose conversion fails; otherwise it succeeds. -/
theorem error_iff_no_record_or_conversion_failure (fs : FS) (resource content : List Char)
    (hread : fs.ReadFile resource = Except.ok content) :
    (NewResourcePressure fs resource).2 ≠ none ↔
      (pressureLineRE.FindAllStringSubmatch content = [] ∨
       ∃ m ∈ pressureLineRE.FindAllStringSubmatch content,
         (ParseUint (field m "total") 10 64).2 ≠ none ∨ (ParseFloat (field m "avg10")).2 ≠ none ∨
         (ParseFloat (field m "avg60")).2 ≠ none ∨ (ParseFloat (field m "avg300")).2 ≠ none) := by
  rw [newResourcePressure_ok fs resource content hread]
  have hfail : ∀ m : List (List Char),
      ((ParseUint (field m "total") 10 64).2 ≠ none ∨ (ParseFloat (field m "avg10")).2 ≠ none ∨
        (ParseFloat (field m "avg60")).2 ≠ none ∨ (ParseFloat (field m "avg300")).2 ≠ none)
      ↔ ¬ Converts m := by
    intro m
    unfold Converts
    tauto
  constructor
  · intro herr
    by_contra hcon
    rw [not_or] at hcon
    obtain ⟨hne, hall⟩ := hcon
    have hconv : ∀ x ∈ pressureLineRE.FindAllStringSubmatch content, IsRecord x ∧ Converts x := by
      intro x hx
      refine ⟨findAll_isRecord _ content (le_refl _) x hx, ?_⟩
      by_contra hx2
      exact hall ⟨x, hx, (hfail x).mpr hx2⟩
    cases hms : pressureLineRE.FindAllStringSubmatch content with
    | nil => exact hne hms
    | cons m ms =>
      rw [hms] at herr hconv
      rw [loop_all_convert_ok resource m ms _ hconv] at herr
      exact herr rfl
  · rintro (h0 | ⟨m, hm, hf⟩)
    · rw [h0, loop_nil]; simp
    · exact loop_error_of_not_converts resource m _ _ hm ((hfail m).mp hf)

theorem error_iff_witness :
    ((NewResourcePressure
        ⟨fun _ => Except.ok ("some avg10=0.10 avg60=0.20 avg300=0.30 total=7\n" ++
          "full avg10=0.00 avg60=0.00 avg300=0.00 total=18446744073709551616\n").toList⟩
        "io".toList).2 ≠ none) ∧
      ∃ m ∈ pressureLineRE.FindAllStringSubmatch
          ("some avg10=0.10 avg60=0.20 avg300=0.30 total=7\n" ++
          "full avg10=0.00 avg60=0.00 avg300=0.00 total=18446744073709551616\n").toList,
        (ParseUint (field m "total") 10 64).2 ≠ none :=
  ⟨(error_iff_no_record_or_conversion_failure _ _ _ rfl).mpr (by decide), by decide⟩

/-! ## Claim C7 -/

theorem lastOfKind_cons (kind : String) (m : List (List Char)) (ms : List (List (List Char))) :
    lastOfKind kind (m :: ms) =
      match lastOfKind kind ms with
      | some r => some r
      | none => if field m "type" = kind.toList then some m else none := by
  unfold lastOfKind
  by_cases h : field m "type" = kind.toList
  · have hb : (field m "type" == kind.toList) = true := by simpa using h
    rw [List.filter_cons_of_pos (p := fun m => field m "type" == kind.toList) hb,
      List.getLast?_cons, if_pos h]
    cases (ms.filter (fun m => field m "type" == kind.toList)).getLast? <;> rfl
  · have hb : ¬ ((field m "type" == kind.toList) = true) := by simpa using h
    rw [List.filter_cons_of_neg (p := fun m => field m "type" == kind.toList) hb, if_neg h]
    cases (ms.filter (fun m => field m "type" == kind.toList)).getLast? <;> rfl

theorem foldl_store_some :
    ∀ (ms : List (List (List Char))) (result : ResourcePressure),
      (ms.foldl storeRecord result).Some =
        match lastOfKind "some" ms with
        | some m => some (measurementOf m)
        | none => result.Some := by
  intro ms
  induction ms with
  | nil => intro result; rfl
  | cons m ms ih =>
    intro result
    rw [List.foldl_cons, ih, lastOfKind_cons]
    cases lastOfKind "some" ms with
    | some r => rfl
    | none =>
      unfold storeRecord
      by_cases h : field m "type" = "some".toList
      · rw [if_pos h, if_pos h]
      · rw [if_neg h, if_neg h]

theorem foldl_store_full :
    ∀ (ms : List (List (List Char))) (result : ResourcePressure),
      (∀ m ∈ ms, IsRecord m) →
      (ms.foldl storeRecord result).Full =
        match lastOfKind "full" ms with
        | some m => some (measurementOf m)
        | none => result.Full := by
  intro ms
  induction ms with
  | nil => intro result _; rfl
  | cons m ms ih =>
    intro result hrec
    rw [List.foldl_cons, ih _ (fun x hx => hrec x (by simp [hx])), lastOfKind_cons]
    cases lastOfKind "full" ms with
    | some r => rfl
    | none =>
      unfold storeRecord
      rcases isRecord_type m (hrec m (by simp)) with hs | hf
      · have hne : ¬ field m "type" = "full".toList := by rw [hs]; decide
        rw [if_pos hs, if_neg hne]
      · have hne : ¬ field m "type" = "some".toList := by rw [hf]; decide
        rw [if_neg hne, if_pos hf]

theorem lastOfKind_ne_nil (kind : String) (ms : List (List (List Char))) (m : List (List Char))
    (h : lastOfKind kind ms = some m) : ms ≠ [] := by
  rintro rfl
  simp [lastOfKind] at h

/-- C7. When every recognised record of a content converts, the slot of a kind
holds the measurement of the last record of that kind in textual order, however
many records of the kind precede it, and no error is returned. -/
theorem last_record_of_kind_wins (fs : FS) (resource content : List Char)
    (hread : fs.ReadFile resource = Except.ok content)
    (hall : ∀ m ∈ pressureLineRE.FindAllStringSubmatch content, Converts m) :
    (∀ m, lastOfKind "some" (pressureLineRE.FindAllStringSubmatch content) = some m →
      (NewResourcePressure fs resource).2 = none ∧
      (NewResourcePressure fs resource).1.Some = some (measurementOf m)) ∧
    (∀ m, lastOfKind "full" (pressureLineRE.FindAllStringSubmatch content) = some m →
      (NewResourcePressure fs resource).2 = none ∧
      (NewResourcePressure fs resource).1.Full = some (measurementOf m)) := by
  rw [newResourcePressure_ok fs resource content hread]
  have hrec := findAll_isRecord _ content (le_refl _)
  have hconv : ∀ x ∈ pressureLineRE.FindAllStringSubmatch content, IsRecord x ∧ Converts x :=
    fun x hx => ⟨hrec x hx, hall x hx⟩
  constructor
  · intro m hm
    cases hms : pressureLineRE.FindAllStringSubmatch content with
    | nil => exact absurd hms (lastOfKind_ne_nil _ _ _ hm)
    | cons x xs =>
      rw [hms] at hconv hm
      rw [loop_all_convert_ok resource x xs _ hconv]
      refine ⟨rfl, ?_⟩
      show ((x :: xs).foldl storeRecord _).Some = _
      rw [foldl_store_some, hm]
  · intro m hm
    cases hms : pressureLineRE.FindAllStringSubmatch content with
    | nil => exact absurd hms (lastOfKind_ne_nil _ _ _ hm)
    | cons x xs =>
      rw [hms] at hconv hm
      rw [loop_all_convert_ok resource x xs _ hconv]
      refine ⟨rfl, ?_⟩
      show ((x :: xs).foldl storeRecord _).Full = _
      rw [foldl_store_full _ _ (fun y hy => (hconv y hy).1), hm]

theorem last_record_of_kind_wins_witness :
    (NewResourcePressure
      ⟨fun _ => Except.ok ("some avg10=0.10 avg60=0.20 avg300=0.30 total=7\n" ++
        "full avg10=0.00 avg60=0.00 avg300=0.00 total=1\n" ++
        "some avg10=1.50 avg60=2.50 avg300=3.50 total=9\n").toList⟩ "io".toList).2 = none ∧
    (NewResourcePressure
      ⟨fun _ => Except.ok ("some avg10=0.10 avg60=0.20 avg300=0.30 total=7\n" ++
        "full avg10=0.00 avg60=0.00 avg300=0.00 total=1\n" ++
        "some avg10=1.50 avg60=2.50 avg300=3.50 total=9\n").toList⟩ "io".toList).1.Some
      = some (measurementOf ["some avg10=1.50 avg60=2.50 avg300=3.50 total=9".toList,
          "some".toList, "1.50".toList, "2.50".toList, "3.50".toList, "9".toList]) :=
  (last_record_of_kind_wins _ _ _ rfl (by decide)).1 _ (by decide)

/-! ## Claims C8 and C9 -/

theorem loop_fromRecords (resource : List Char) (all : List (List (List Char))) :
    ∀ (ms : List (List (List Char))) (result : ResourcePressure),
      (∀ m ∈ ms, m ∈ all) → FromRecords all result →
      FromRecords all (pressureLoop resource result ms).1 := by
  intro ms
  induction ms with
  | nil =>
    intro result _ hinv
    rw [loop_nil]
    by_cases hb : result.Some = none ∧ result.Full = none
    · rw [if_pos hb]; exact hinv
    · rw [if_neg hb]; exact hinv
  | cons m ms ih =>
    intro result hsub hinv
    have hm : m ∈ all := hsub m (by simp)
    have hsub1 : ∀ x ∈ ms, x ∈ all := fun x hx => hsub x (by simp [hx])
    rcases loop_cons_cases resource result m ms with ⟨e, _, he⟩ | ⟨hc, hty, he⟩ | ⟨hc, hty, he⟩ |
      ⟨_, _, _, he⟩
    · rw [he]; exact hinv
    · rw [he]
      refine ih _ hsub1 ⟨?_, hinv.2⟩
      intro meas hmeas
      simp only [Option.some.injEq] at hmeas
      exact ⟨m, hm, hty, hc, hmeas.symm⟩
    · rw [he]
      refine ih _ hsub1 ⟨hinv.1, ?_⟩
      intro meas hmeas
      simp only [Option.some.injEq] at hmeas
      exact ⟨m, hm, hty, hc, hmeas.symm⟩
    · rw [he]; exact hinv

/-- C8. Every measurement present in the returned value, with or without an
error beside it, holds the four converted values of one recognised record of
the slot's kind, all four of whose conversions succeeded: no measurement with
only some of its fields converted is ever stored. -/
theorem measurements_fully_converted (fs : FS) (resource content : List Char)
    (hread : fs.ReadFile resource = Except.ok content) :
    (∀ meas, (NewResourcePressure fs resource).1.Some = some meas →
      ∃ m ∈ pressureLineRE.FindAllStringSubmatch content,
        field m "type" = "some".toList ∧
        (ParseUint (field m "total") 10 64).2 = none ∧ (ParseFloat (field m "avg10")).2 = none ∧
        (ParseFloat (field m "avg60")).2 = none ∧ (ParseFloat (field m "avg300")).2 = none ∧
        meas = { CongestedPercent10Seconds := (ParseFloat (field m "avg10")).1
                 CongestedPercent60Seconds := (ParseFloat (field m "avg60")).1
                 CongestedPercent300Seconds := (ParseFloat (field m "avg300")).1
                 TotalMicroseconds := (ParseUint (field m "total") 10 64).1 }) ∧
    (∀ meas, (NewResourcePressure fs resource).1.Full = some meas →
      ∃ m ∈ pressureLineRE.FindAllStringSubmatch content,
        field m "type" = "full".toList ∧
        (ParseUint (field m "total") 10 64).2 = none ∧ (ParseFloat (field m "avg10")).2 = none ∧
        (ParseFloat (field m "avg60")).2 = none ∧ (ParseFloat (field m "avg300")).2 = none ∧
        meas = { CongestedPercent10Seconds := (ParseFloat (field m "avg10")).1
                 CongestedPercent60Seconds := (ParseFloat (field m "avg60")).1
                 CongestedPercent300Seconds := (ParseFloat (field m "avg300")).1
                 TotalMicroseconds := (ParseUint (field m "total") 10 64).1 }) := by
  rw [newResourcePressure_ok fs resource content hread]
  have h := loop_fromRecords resource (pressureLineRE.FindAllStringSubmatch content)
    (pressureLineRE.FindAllStringSubmatch content)
    { Resource := resource, Full := none, Some := none } (fun _ hm => hm)
    (by
      unfold FromRecords
      exact ⟨fun _ hmeas => Option.noConfusion hmeas, fun _ hmeas => Option.noConfusion hmeas⟩)
  unfold FromRecords at h
  constructor
  · intro meas hmeas
    obtain ⟨m, hm, hty, ⟨h1, h2, h3, h4⟩, hval⟩ := h.1 meas hmeas
    exact ⟨m, hm, hty, h1, h2, h3, h4, hval⟩
  · intro meas hmeas
    obtain ⟨m, hm, hty, ⟨h1, h2, h3, h4⟩, hval⟩ := h.2 meas hmeas
    exact ⟨m, hm, hty, h1, h2, h3, h4, hval⟩

theorem measurements_fully_converted_witness :
    (NewResourcePressure
      ⟨fun _ => Except.ok ("some avg10=0.10 avg60=0.20 avg300=0.30 total=7\n" ++
        "full avg10=0.00 avg60=1.2.3 avg300=0.00 total=1\n").toList⟩ "io".toList).2 ≠ none ∧
    ∃ m ∈ pressureLineRE.FindAllStringSubmatch
        ("some avg10=0.10 avg60=0.20 avg300=0.30 total=7\n" ++
        "full avg10=0.00 avg60=1.2.3 avg300=0.00 total=1\n").toList,
      field m "type" = "some".toList ∧
      (ParseUint (field m "total") 10 64).2 = none ∧ (ParseFloat (field m "avg10")).2 = none ∧
      (ParseFloat (field m "avg60")).2 = none ∧ (ParseFloat (field m "avg300")).2 = none ∧
      ({ CongestedPercent10Seconds := .finite 7205759403792794 (-56)
         CongestedPercent60Seconds := .finite 7205759403792794 (-55)
         CongestedPercent300Seconds := .finite 5404319552844595 (-54)
         TotalMicroseconds := 7 } : ResourcePressureMeasurement)
       = { CongestedPercent10Seconds := (ParseFloat (field m "avg10")).1
           CongestedPercent60Seconds := (ParseFloat (field m "avg60")).1
           CongestedPercent300Seconds := (ParseFloat (field m "avg300")).1
           TotalMicroseconds := (ParseUint (field m "total") 10 64).1 } :=
  ⟨by decide,
    (measurements_fully_converted
      ⟨fun _ => Except.ok ("some avg10=0.10 avg60=0.20 avg300=0.30 total=7\n" ++
        "full avg10=0.00 avg60=1.2.3 avg300=0.00 total=1\n").toList⟩ "io".toList _ rfl).1 _
      (by decide)⟩

theorem findAll_append_unrecognised (content tail : List Char)
    (htail : pressureLineRE.FindAllStringSubmatch tail = []) :
    pressureLineRE.FindAllStringSubmatch (content ++ '\n' :: tail)
      = pressureLineRE.FindAllStringSubmatch content := by
  rw [findAll_append_newline _ content (le_refl _), htail, List.append_nil]

/-- C9. When the parse of a content succeeds, the parse of that content
followed by a newline and a text in which the pattern recognises no record
succeeds too, with the same `Some` and `Full`. -/
theorem unrecognised_tail_ignored (fs fs1 : FS) (resource content tail : List Char)
    (hread : fs.ReadFile resource = Except.ok content)
    (hread1 : fs1.ReadFile resource = Except.ok (content ++ '\n' :: tail))
    (hok : (NewResourcePressure fs resource).2 = none)
    (htail : pressureLineRE.FindAllStringSubmatch tail = []) :
    (NewResourcePressure fs1 resource).2 = none ∧
    (NewResourcePressure fs1 resource).1.Some = (NewResourcePressure fs resource).1.Some ∧
    (NewResourcePressure fs1 resource).1.Full = (NewResourcePressure fs resource).1.Full := by
  rw [newResourcePressure_ok fs1 resource _ hread1, findAll_append_unrecognised content tail htail,
    ← newResourcePressure_ok fs resource content hread]
  exact ⟨hok, rfl, rfl⟩

theorem unrecognised_tail_ignored_witness :
    (NewResourcePressure
      ⟨fun _ => Except.ok ("some avg10=0.10 avg60=0.20 avg300=0.30 total=7" ++
        "\nnone avg10=x\nsome avg10=1 avg60=2 avg300=3 total=").toList⟩ "cpu".toList).2 = none ∧
    (NewResourcePressure
      ⟨fun _ => Except.ok ("some avg10=0.10 avg60=0.20 avg300=0.30 total=7" ++
        "\nnone avg10=x\nsome avg10=1 avg60=2 avg300=3 total=").toList⟩ "cpu".toList).1.Some
      = (NewResourcePressure
      ⟨fun _ => Except.ok "some avg10=0.10 avg60=0.20 avg300=0.30 total=7".toList⟩
        "cpu".toList).1.Some ∧
    (NewResourcePressure
      ⟨fun _ => Except.ok ("some avg10=0.10 avg60=0.20 avg300=0.30 total=7" ++
        "\nnone avg10=x\nsome avg10=1 avg60=2 avg300=3 total=").toList⟩ "cpu".toList).1.Full
      = (NewResourcePressure
      ⟨fun _ => Except.ok "some avg10=0.10 avg60=0.20 avg300=0.30 total=7".toList⟩
        "cpu".toList).1.Full :=
  unrecognised_tail_ignored
    ⟨fun _ => Except.ok "some avg10=0.10 avg60=0.20 avg300=0.30 total=7".toList⟩ _ "cpu".toList
    "some avg10=0.10 avg60=0.20 avg300=0.30 total=7".toList
    "none avg10=x\nsome avg10=1 avg60=2 avg300=3 total=".toList rfl rfl (by decide) (by decide)

/-! ## Claim C6 -/

/-- C6, the claim as stated fails. With `total=12x4` the pattern captures the
digits `12`, no conversion fails and the parse succeeds with a total of 12;
with `total=abc` the line is not recognised and the error is the no-data error,
not a conversion error for `total`. -/
theorem total_non_digit_counterexample :
    NewResourcePressure
      ⟨fun _ => Except.ok "some avg10=0.00 avg60=0.00 avg300=0.00 total=12x4".toList⟩
      "cpu".toList =
      ({ Resource := "cpu".toList, Full := none
         Some := some { CongestedPercent10Seconds := Float64.zero
                        CongestedPercent60Seconds := Float64.zero
                        CongestedPercent300Seconds := Float64.zero
                        TotalMicroseconds := 12 } }, none) ∧
    NewResourcePressure
      ⟨fun _ => Except.ok "some avg10=0.00 avg60=0.00 avg300=0.00 total=abc".toList⟩
      "cpu".toList =
      ({ Resource := "cpu".toList, Full := none, Some := none },
        some "could not parse pressure file for cpu".toList) := by
  refine ⟨by decide, by decide⟩

theorem starCls_blocked {α : Type} (p : Char → Bool) (k : List Char → Option α)
    (hk : ∀ c t, p c = true → k (c :: t) = none) :
    ∀ s : List Char, starCls p s k = k (s.dropWhile p) := by
  intro s
  induction s with
  | nil => simp [starCls]
  | cons x xs ih =>
    simp only [starCls]
    by_cases hp : p x = true
    · rw [if_pos hp, List.dropWhile_cons_of_pos hp, ih]
      cases hrec : k (xs.dropWhile p) with
      | some r1 => rfl
      | none => simpa using hk x xs hp
    · rw [if_neg hp, List.dropWhile_cons_of_neg hp]

theorem run_group_plus_blocked {α : Type} (i : Nat) (p : Char → Bool) (a rest : List Char)
    (hne : a ≠ []) (ha : ∀ x ∈ a, p x = true) (hrest : ∀ x ∈ rest.head?, p x = false)
    (caps : Caps) (k : List Char → Caps → Option α)
    (hk : ∀ c t caps1, p c = true → k (c :: t) caps1 = none) :
    (Regex.group i (Regex.plus p)).run (a ++ rest) caps k = k rest ((i, a) :: caps) := by
  cases a with
  | nil => exact absurd rfl hne
  | cons x xs =>
    have hx : p x = true := ha x (by simp)
    simp only [Regex.run, List.cons_append, hx, if_true]
    rw [starCls_blocked p _ (fun c t hc => hk c t _ hc),
      dropWhile_append_of_all p xs rest (fun y hy => ha y (by simp [hy])) hrest]
    have := take_append_sub (x :: xs) rest
    simp only [List.cons_append] at this
    rw [this]

theorem run_space_blocked {α : Type} (l : List Char) (re : Regex)
    (k : List Char → Caps → Option α) (c : Char) (t : List Char) (caps : Caps)
    (hc : isDigitOrDot c = true) :
    (Regex.seq (Regex.str (' ' :: l)) re).run (c :: t) caps k = none := by
  have hne : c ≠ ' ' := by
    rintro rfl
    revert hc
    decide
  simp [Regex.run, Regex.str, hne]

theorem run_kind_eq {α : Type} (ty rest : List Char)
    (hty : ty = "some".toList ∨ ty = "full".toList)
    (caps : Caps) (k : List Char → Caps → Option α) :
    (Regex.group 1 (Regex.alt (Regex.str "some".toList) (Regex.str "full".toList))).run
      (ty ++ rest) caps k = k rest ((1, ty) :: caps) := by
  rcases hty with rfl | rfl
  · rw [run_group, run_alt, run_str_append, take_append_sub]
    cases k rest ((1, "some".toList) :: caps) with
    | some r => rfl
    | none => simp [Regex.str, Regex.run]
  · rw [run_group, run_alt, run_str_append, take_append_sub]
    simp [Regex.str, Regex.run]

theorem run_group_plus_none {α : Type} (i : Nat) (p : Char → Bool) (s : List Char)
    (hs : ∀ x ∈ s.head?, p x = false) (caps : Caps) (k : List Char → Caps → Option α) :
    (Regex.group i (Regex.plus p)).run s caps k = none := by
  cases s with
  | nil => simp [Regex.run]
  | cons x xs =>
    have hx : p x = false := hs x (by simp)
    simp [Regex.run, hx]

/-- With no digit after `total=`, the pattern does not match at the start of the line. -/
theorem matchHere_no_total (ty a b c rest : List Char)
    (hty : ty = "some".toList ∨ ty = "full".toList)
    (ha : a ≠ []) (ha1 : ∀ x ∈ a, isDigitOrDot x = true)
    (hb : b ≠ []) (hb1 : ∀ x ∈ b, isDigitOrDot x = true)
    (hc : c ≠ []) (hc1 : ∀ x ∈ c, isDigitOrDot x = true)
    (hrest : ∀ x ∈ rest.head?, isDigit x = false) :
    pressureLineRE.matchHere (recordText ty a b c rest) = none := by
  unfold Regex.matchHere pressureLineRE recordText
  rw [run_seq, run_kind_eq _ _ hty, run_seq_str_append, run_seq,
    run_group_plus_blocked _ _ _ _ ha ha1 (head_space_append " avg60=".toList _ rfl) _ _
      (fun c t caps1 hc => run_space_blocked _ _ _ c t caps1 hc),
    run_seq_str_append, run_seq,
    run_group_plus_blocked _ _ _ _ hb hb1 (head_space_append " avg300=".toList _ rfl) _ _
      (fun c t caps1 hc => run_space_blocked _ _ _ c t caps1 hc),
    run_seq_str_append, run_seq,
    run_group_plus_blocked _ _ _ _ hc hc1 (head_space_append " total=".toList _ rfl) _ _
      (fun c t caps1 hc => run_space_blocked _ _ _ c t caps1 hc),
    run_seq_str_append, run_group_plus_none _ _ _ hrest]

theorem matchHere_none_of_head (x : Char) (xs : List Char) (hs : x ≠ 's') (hf : x ≠ 'f') :
    pressureLineRE.matchHere (x :: xs) = none := by
  cases hm : pressureLineRE.matchHere (x :: xs) with
  | none => rfl
  | some r =>
    exfalso
    obtain ⟨m, rest⟩ := r
    obtain ⟨ty, a, b, c, t, hty, _, _, _, _, _, _, _, _, _, hx, _⟩ := matchHere_sound _ _ _ hm
    rcases hty with rfl | rfl
    · simp [recordText] at hx
      exact hs hx.1
    · simp [recordText] at hx
      exact hf hx.1

theorem findAll_skip (pre s : List Char) (hpre : ∀ x ∈ pre, x ≠ 's' ∧ x ≠ 'f') :
    pressureLineRE.FindAllStringSubmatch (pre ++ s) = pressureLineRE.FindAllStringSubmatch s := by
  induction pre with
  | nil => rfl
  | cons y ys ih =>
    rw [List.cons_append,
      findAll_of_none _ _ _ (matchHere_none_of_head y _ (hpre y (by simp)).1 (hpre y (by simp)).2)]
    exact ih (fun x hx => hpre x (by simp [hx]))

theorem not_kind_letter (x : Char) (h : isDigitOrDot x = true) : x ≠ 's' ∧ x ≠ 'f' := by
  constructor <;> (rintro rfl; revert h; decide)

/-- With no digit after `total=`, nothing is recognised in the line before the
text that follows `total=`. -/
theorem findAll_no_total (ty a b c rest : List Char)
    (hty : ty = "some".toList ∨ ty = "full".toList)
    (ha : a ≠ []) (ha1 : ∀ x ∈ a, isDigitOrDot x = true)
    (hb : b ≠ []) (hb1 : ∀ x ∈ b, isDigitOrDot x = true)
    (hc : c ≠ []) (hc1 : ∀ x ∈ c, isDigitOrDot x = true)
    (hrest : ∀ x ∈ rest.head?, isDigit x = false) :
    pressureLineRE.FindAllStringSubmatch (recordText ty a b c rest)
      = pressureLineRE.FindAllStringSubmatch rest := by
  have hnone := matchHere_no_total ty a b c rest hty ha ha1 hb hb1 hc hc1 hrest
  have hskip : ∀ (k0 : Char) (k1 : List Char), ty = k0 :: k1 →
      (∀ x ∈ k1, x ≠ 's' ∧ x ≠ 'f') →
      pressureLineRE.FindAllStringSubmatch (recordText ty a b c rest)
        = pressureLineRE.FindAllStringSubmatch rest := by
    intro k0 k1 hk hk1
    have hform : recordText ty a b c rest = k0 :: ((k1 ++ (" avg10=".toList ++ (a ++
        (" avg60=".toList ++ (b ++ (" avg300=".toList ++ (c ++ " total=".toList))))))) ++ rest) := by
      simp [recordText, hk]
    rw [hform] at hnone ⊢
    rw [findAll_of_none _ _ _ hnone]
    apply findAll_skip
    intro x hx
    simp only [List.mem_append] at hx
    rcases hx with hx | hx | hx | hx | hx | hx | hx | hx
    · exact hk1 x hx
    · revert x; decide
    · exact not_kind_letter x (ha1 x hx)
    · revert x; decide
    · exact not_kind_letter x (hb1 x hx)
    · revert x; decide
    · exact not_kind_letter x (hc1 x hx)
    · revert x; decide
  rcases hty with rfl | rfl
  · exact hskip 's' "ome".toList rfl (by decide)
  · exact hskip 'f' "ull".toList rfl (by decide)

/-- C6, amended. In a `some` or `full` line whose `total=` field is a run of
digits `d` followed by a non-digit character (and then any text in which
nothing is recognised), the non-digit never reaches the conversion. With no
digit before it the line is not recognised and the parse fails with the no-data
error; otherwise the parse is that of the line cut before the non-digit, so the
total is read from `d` alone. -/
theorem total_read_up_to_non_digit (fs fs1 : FS) (resource ty a b c d : List Char) (x : Char)
    (r : List Char)
    (hty : ty = "some".toList ∨ ty = "full".toList)
    (ha : a ≠ []) (ha1 : ∀ y ∈ a, isDigitOrDot y = true)
    (hb : b ≠ []) (hb1 : ∀ y ∈ b, isDigitOrDot y = true)
    (hc : c ≠ []) (hc1 : ∀ y ∈ c, isDigitOrDot y = true)
    (hd : ∀ y ∈ d, isDigit y = true) (hx : isDigit x = false)
    (hr : pressureLineRE.FindAllStringSubmatch (x :: r) = [])
    (hread : fs.ReadFile resource = Except.ok (recordText ty a b c (d ++ x :: r))) :
    (d = [] → NewResourcePressure fs resource =
      ({ Resource := resource, Full := none, Some := none },
        some ("could not parse pressure file for ".toList ++ resource))) ∧
    (d ≠ [] → fs1.ReadFile resource = Except.ok (recordText ty a b c d) →
      NewResourcePressure fs resource = NewResourcePressure fs1 resource) := by
  have hhead : ∀ y ∈ (x :: r).head?, isDigit y = false := by
    intro y hy
    simp at hy
    subst hy
    exact hx
  rw [newResourcePressure_ok fs resource _ hread]
  constructor
  · rintro rfl
    rw [List.nil_append, findAll_no_total ty a b c (x :: r) hty ha ha1 hb hb1 hc hc1 hhead, hr,
      loop_nil]
    simp
  · intro hne hread1
    rw [newResourcePressure_ok fs1 resource _ hread1, ← recordText_append,
      findAll_line ty a b c d (x :: r) hty ha ha1 hb hb1 hc hc1 hne hd hhead, hr]
    have h0 := findAll_line ty a b c d [] hty ha ha1 hb hb1 hc hc1 hne hd (by simp)
    rw [List.append_nil, findAll_nil] at h0
    rw [h0]

theorem total_read_up_to_non_digit_witness :
    NewResourcePressure
      ⟨fun _ => Except.ok "full avg10=0.50 avg60=0.25 avg300=0.00 total=abc".toList⟩
      "memory".toList =
      ({ Resource := "memory".toList, Full := none, Some := none },
        some "could not parse pressure file for memory".toList) ∧
    NewResourcePressure
      ⟨fun _ => Except.ok "full avg10=0.50 avg60=0.25 avg300=0.00 total=12x4".toList⟩
      "memory".toList =
    NewResourcePressure
      ⟨fun _ => Except.ok "full avg10=0.50 avg60=0.25 avg300=0.00 total=12".toList⟩
      "memory".toList :=
  ⟨(total_read_up_to_non_digit _ ⟨fun _ => Except.error []⟩ "memory".toList "full".toList
      "0.50".toList "0.25".toList "0.00".toList [] 'a' "bc".toList (Or.inr rfl)
      (by decide) (by decide) (by decide) (by decide) (by decide) (by decide) (by decide)
      (by decide) (by decide) rfl).1 rfl,
   (total_read_up_to_non_digit _
      ⟨fun _ => Except.ok "full avg10=0.50 avg60=0.25 avg300=0.00 total=12".toList⟩
      "memory".toList "full".toList
      "0.50".toList "0.25".toList "0.00".toList "12".toList 'x' "4".toList (Or.inr rfl)
      (by decide) (by decide) (by decide) (by decide) (by decide) (by decide) (by decide)
      (by decide) (by decide) rfl).2 (by decide) rfl⟩

/-! ## Claim C10 -/

/-- C10, the claim as stated fails. A valid `full` line followed by a `some`
line whose `avg10` is `1.2.3`, not a decimal number: the second line is
recognised, its `avg10` conversion fails and the parse returns that error
instead of succeeding. The same happens with `avg10=.`. -/
theorem malformed_average_counterexample :
    ValidFields "0.00".toList "0.00".toList "0.00".toList "1".toList ∧
    isDecimalText "1.2.3".toList = false ∧ isDecimalText ".".toList = false ∧
    (NewResourcePressure
      ⟨fun _ => Except.ok ("full avg10=0.00 avg60=0.00 avg300=0.00 total=1\n" ++
        "some avg10=1.2.3 avg60=0.00 avg300=0.00 total=1\n").toList⟩ "memory".toList).2
      = some ("could not parse avg10 1.2.3: strconv.ParseFloat: parsing \"1.2.3\": " ++
          "invalid syntax").toList ∧
    (NewResourcePressure
      ⟨fun _ => Except.ok ("full avg10=0.00 avg60=0.00 avg300=0.00 total=1\n" ++
        "some avg10=. avg60=0.00 avg300=0.00 total=1\n").toList⟩ "memory".toList).2
      = some ("could not parse avg10 .: strconv.ParseFloat: parsing \".\": " ++
          "invalid syntax").toList := by
  refine ⟨by decide, by decide, by decide, by decide, by decide⟩

theorem validFields_run (a b c t : List Char) (hv : ValidFields a b c t) :
    a ≠ [] ∧ (∀ x ∈ a, isDigitOrDot x = true) ∧ b ≠ [] ∧ (∀ x ∈ b, isDigitOrDot x = true) ∧
    c ≠ [] ∧ (∀ x ∈ c, isDigitOrDot x = true) ∧ t ≠ [] ∧ (∀ x ∈ t, isDigit x = true) := by
  obtain ⟨h1, h2, h3, h4, h5, _⟩ := hv
  exact ⟨(isDecimalText_run a h1).1, (isDecimalText_run a h1).2,
    (isDecimalText_run b h2).1, (isDecimalText_run b h2).2,
    (isDecimalText_run c h3).1, (isDecimalText_run c h3).2, h4,
    by simpa [List.all_eq_true] using h5⟩

/-- The records of a content made of two record lines, with or without a final newline. -/
theorem findAll_two_lines (ty1 a1 b1 c1 t1 ty2 a2 b2 c2 t2 tail : List Char)
    (hty1 : ty1 = "some".toList ∨ ty1 = "full".toList)
    (h1 : a1 ≠ [] ∧ (∀ x ∈ a1, isDigitOrDot x = true) ∧ b1 ≠ [] ∧
      (∀ x ∈ b1, isDigitOrDot x = true) ∧ c1 ≠ [] ∧ (∀ x ∈ c1, isDigitOrDot x = true) ∧
      t1 ≠ [] ∧ (∀ x ∈ t1, isDigit x = true))
    (hty2 : ty2 = "some".toList ∨ ty2 = "full".toList)
    (h2 : a2 ≠ [] ∧ (∀ x ∈ a2, isDigitOrDot x = true) ∧ b2 ≠ [] ∧
      (∀ x ∈ b2, isDigitOrDot x = true) ∧ c2 ≠ [] ∧ (∀ x ∈ c2, isDigitOrDot x = true) ∧
      t2 ≠ [] ∧ (∀ x ∈ t2, isDigit x = true))
    (htail : tail = [] ∨ tail = ['\n']) :
    pressureLineRE.FindAllStringSubmatch
        (recordText ty1 a1 b1 c1 t1 ++ '\n' :: (recordText ty2 a2 b2 c2 t2 ++ tail))
      = [[recordText ty1 a1 b1 c1 t1, ty1, a1, b1, c1, t1],
         [recordText ty2 a2 b2 c2 t2, ty2, a2, b2, c2, t2]] := by
  obtain ⟨htl, hhd⟩ := findAll_newline_tail tail htail
  obtain ⟨p1, p2, p3, p4, p5, p6, p7, p8⟩ := h1
  obtain ⟨q1, q2, q3, q4, q5, q6, q7, q8⟩ := h2
  have hA := findAll_line ty1 a1 b1 c1 t1 [] hty1 p1 p2 p3 p4 p5 p6 p7 p8 (by simp)
  rw [List.append_nil, findAll_nil] at hA
  rw [findAll_append_newline _ _ (le_refl _), hA,
    findAll_line ty2 a2 b2 c2 t2 tail hty2 q1 q2 q3 q4 q5 q6 q7 q8 hhd, htl]
  rfl

/-- A `some` line whose average fields are non-empty runs of digits and dots,
one of which its conversion rejects, beside a valid `full` line: the parse
fails with the conversion error of the first rejected average. -/
theorem malformed_average_error (fs : FS)
    (resource content a1 b1 c1 t1 a2 b2 c2 t2 tail : List Char)
    (hfull : ValidFields a2 b2 c2 t2)
    (ha : a1 ≠ [] ∧ ∀ x ∈ a1, isDigitOrDot x = true)
    (hb : b1 ≠ [] ∧ ∀ x ∈ b1, isDigitOrDot x = true)
    (hc : c1 ≠ [] ∧ ∀ x ∈ c1, isDigitOrDot x = true)
    (ht : t1 ≠ [] ∧ ∀ x ∈ t1, isDigit x = true)
    (htotal : (ParseUint t1 10 64).2 = none)
    (hbad : (ParseFloat a1).2 ≠ none ∨ (ParseFloat b1).2 ≠ none ∨ (ParseFloat c1).2 ≠ none)
    (htail : tail = [] ∨ tail = ['\n'])
    (hcontent :
      content = recordText "full".toList a2 b2 c2 t2 ++ '\n' ::
        (recordText "some".toList a1 b1 c1 t1 ++ tail) ∨
      content = recordText "some".toList a1 b1 c1 t1 ++ '\n' ::
        (recordText "full".toList a2 b2 c2 t2 ++ tail))
    (hread : fs.ReadFile resource = Except.ok content) :
    (NewResourcePressure fs resource).1.Some = none ∧
    ∃ name raw err,
      ((name = "avg10".toList ∧ raw = a1) ∨
       (name = "avg60".toList ∧ raw = b1 ∧ (ParseFloat a1).2 = none) ∨
       (name = "avg300".toList ∧ raw = c1 ∧ (ParseFloat a1).2 = none ∧
         (ParseFloat b1).2 = none)) ∧
      (ParseFloat raw).2 = some err ∧
      (NewResourcePressure fs resource).2 =
        some ("could not parse ".toList ++ name ++ [' '] ++ raw ++ ": ".toList ++ err.Error) := by
  have hS : a1 ≠ [] ∧ (∀ x ∈ a1, isDigitOrDot x = true) ∧ b1 ≠ [] ∧
      (∀ x ∈ b1, isDigitOrDot x = true) ∧ c1 ≠ [] ∧ (∀ x ∈ c1, isDigitOrDot x = true) ∧
      t1 ≠ [] ∧ (∀ x ∈ t1, isDigit x = true) :=
    ⟨ha.1, ha.2, hb.1, hb.2, hc.1, hc.2, ht.1, ht.2⟩
  have hF := validFields_run a2 b2 c2 t2 hfull
  have cF := converts_record (recordText "full".toList a2 b2 c2 t2) "full".toList a2 b2 c2 t2
    hfull.2.2.2.2.2
  -- the error of the malformed record
  have herr : ∃ name raw err,
      ((name = "avg10".toList ∧ raw = a1) ∨
       (name = "avg60".toList ∧ raw = b1 ∧ (ParseFloat a1).2 = none) ∨
       (name = "avg300".toList ∧ raw = c1 ∧ (ParseFloat a1).2 = none ∧
         (ParseFloat b1).2 = none)) ∧
      (ParseFloat raw).2 = some err ∧
      convError [recordText "some".toList a1 b1 c1 t1, "some".toList, a1, b1, c1, t1] =
        some ("could not parse ".toList ++ name ++ [' '] ++ raw ++ ": ".toList ++ err.Error) := by
    have hfld := field_record (recordText "some".toList a1 b1 c1 t1) "some".toList a1 b1 c1 t1
    unfold convError
    rw [hfld.2.1, hfld.2.2.1, hfld.2.2.2.1, hfld.2.2.2.2, htotal]
    cases h1 : (ParseFloat a1).2 with
    | some e => exact ⟨_, a1, e, Or.inl ⟨rfl, rfl⟩, h1, rfl⟩
    | none =>
      cases h2 : (ParseFloat b1).2 with
      | some e => exact ⟨_, b1, e, Or.inr (Or.inl ⟨rfl, rfl, rfl⟩), h2, rfl⟩
      | none =>
        cases h3 : (ParseFloat c1).2 with
        | some e => exact ⟨_, c1, e, Or.inr (Or.inr ⟨rfl, rfl, rfl, rfl⟩), h3, rfl⟩
        | none =>
          exfalso
          rcases hbad with h | h | h
          · exact h h1
          · exact h h2
          · exact h h3
  obtain ⟨name, raw, err, hwhich, hraw, hconv⟩ := herr
  rw [newResourcePressure_ok fs resource content hread]
  rcases hcontent with rfl | rfl
  · rw [findAll_two_lines _ a2 b2 c2 t2 _ a1 b1 c1 t1 tail (Or.inr rfl) hF (Or.inl rfl) hS htail,
      loop_cons_full _ _ _ _ cF rfl, loop_cons_error _ _ _ _ _ hconv]
    exact ⟨rfl, name, raw, err, hwhich, hraw, rfl⟩
  · rw [findAll_two_lines _ a1 b1 c1 t1 _ a2 b2 c2 t2 tail (Or.inl rfl) hS (Or.inr rfl) hF htail,
      loop_cons_error _ _ _ _ _ hconv]
    exact ⟨rfl, name, raw, err, hwhich, hraw, rfl⟩

theorem split_at_sep_unique (sep : Char) :
    ∀ (a a1 x x1 : List Char), sep ∉ a → sep ∉ a1 → a ++ sep :: x = a1 ++ sep :: x1 →
      a = a1 ∧ x = x1 := by
  intro a
  induction a with
  | nil =>
    intro a1 x x1 _ h1 h
    cases a1 with
    | nil => simpa using h
    | cons y ys =>
      simp only [List.nil_append, List.cons_append, List.cons.injEq] at h
      exact absurd (by simp [h.1]) h1
  | cons z zs ih =>
    intro a1 x x1 h0 h1 h
    cases a1 with
    | nil =>
      simp only [List.nil_append, List.cons_append, List.cons.injEq] at h
      exact absurd (by simp [h.1]) h0
    | cons y ys =>
      simp only [List.cons_append, List.cons.injEq] at h
      obtain ⟨hzy, hrest⟩ := h
      obtain ⟨h2, h3⟩ := ih ys x x1 (fun hm => h0 (by simp [hm])) (fun hm => h1 (by simp [hm])) hrest
      exact ⟨by rw [hzy, h2], h3⟩

theorem space_not_mem_run (a : List Char) (ha : ∀ x ∈ a, isDigitOrDot x = true) : ' ' ∉ a := by
  intro h
  have := ha _ h
  revert this
  decide

/-- A match at the start of a record-like line with space-free fields captures
exactly the fields of the line. -/
theorem matchHere_fields (ty a b c t : List Char) (m : List (List Char)) (rest : List Char)
    (hty : ty = "some".toList ∨ ty = "full".toList)
    (ha : ' ' ∉ a) (hb : ' ' ∉ b) (hc : ' ' ∉ c)
    (h : pressureLineRE.matchHere (recordText ty a b c t) = some (m, rest)) :
    (a ≠ [] ∧ ∀ x ∈ a, isDigitOrDot x = true) ∧ (b ≠ [] ∧ ∀ x ∈ b, isDigitOrDot x = true) ∧
    (c ≠ [] ∧ ∀ x ∈ c, isDigitOrDot x = true) := by
  obtain ⟨ty1, a1, b1, c1, t1, hty1, ha1, ha2, hb1, hb2, hc1, hc2, _, _, _, hs, _⟩ :=
    matchHere_sound _ _ _ h
  have hs1 : " avg10=".toList ++ (a ++ (" avg60=".toList ++ (b ++ (" avg300=".toList ++
      (c ++ (" total=".toList ++ t)))))) =
      " avg10=".toList ++ (a1 ++ (" avg60=".toList ++ (b1 ++ (" avg300=".toList ++
      (c1 ++ (" total=".toList ++ (t1 ++ rest))))))) := by
    rcases hty with rfl | rfl <;> rcases hty1 with rfl | rfl <;>
      simp [recordText] at hs <;> simp [hs]
  have hs2 := List.append_cancel_left hs1
  obtain ⟨e1, hs3⟩ := split_at_sep_unique ' ' a a1 _ _ ha (space_not_mem_run a1 ha2) hs2
  have hs4 := @List.append_cancel_left _ "avg60=".toList _ _ hs3
  obtain ⟨e2, hs5⟩ := split_at_sep_unique ' ' b b1 _ _ hb (space_not_mem_run b1 hb2) hs4
  have hs6 := @List.append_cancel_left _ "avg300=".toList _ _ hs5
  obtain ⟨e3, _⟩ := split_at_sep_unique ' ' c c1 _ _ hc (space_not_mem_run c1 hc2) hs6
  subst e1 e2 e3
  exact ⟨⟨ha1, ha2⟩, ⟨hb1, hb2⟩, ⟨hc1, hc2⟩⟩

theorem count_space_record (ty a b c t : List Char) :
    4 ≤ (recordText ty a b c t).count ' ' := by
  simp only [recordText, List.count_append]
  have h1 : " avg10=".toList.count ' ' = 1 := by decide
  have h2 : " avg60=".toList.count ' ' = 1 := by decide
  have h3 : " avg300=".toList.count ' ' = 1 := by decide
  have h4 : " total=".toList.count ' ' = 1 := by decide
  omega

theorem findAll_few_spaces (s : List Char) (h : s.count ' ' < 4) :
    pressureLineRE.FindAllStringSubmatch s = [] := by
  induction s with
  | nil => rfl
  | cons y ys ih =>
    rcases findAll_cases (y :: ys) with ⟨h0, _⟩ | ⟨x, xs, hx, _, hf⟩ |
      ⟨m, rest, w, hrec, hw, _, hs, _, _, _⟩
    · cases h0
    · simp only [List.cons.injEq] at hx
      rw [hf, ← hx.2]
      apply ih
      have := List.count_le_count_cons ' ' y ys
      omega
    · exfalso
      obtain ⟨ty, a, b, c, t, _, _, _, _, _, _, _, _, _, rfl⟩ := hrec
      simp only [List.head?_cons, Option.some.injEq] at hw
      subst hw
      rw [hs, List.count_append] at h
      have := count_space_record ty a b c t
      omega

/-- A record-like line with space-free fields, one of whose averages is empty or
has a character other than digits and the dot: nothing is recognised in it. -/
theorem findAll_foreign_average (a b c t : List Char)
    (ha : ' ' ∉ a) (hb : ' ' ∉ b) (hc : ' ' ∉ c) (ht : ' ' ∉ t)
    (hbad : ¬ ((a ≠ [] ∧ ∀ x ∈ a, isDigitOrDot x = true) ∧
      (b ≠ [] ∧ ∀ x ∈ b, isDigitOrDot x = true) ∧ (c ≠ [] ∧ ∀ x ∈ c, isDigitOrDot x = true))) :
    pressureLineRE.FindAllStringSubmatch (recordText "some".toList a b c t) = [] := by
  have hnone : pressureLineRE.matchHere (recordText "some".toList a b c t) = none := by
    cases hm : pressureLineRE.matchHere (recordText "some".toList a b c t) with
    | none => rfl
    | some r => exact absurd (matchHere_fields _ a b c t r.1 r.2 (Or.inl rfl) ha hb hc hm) hbad
  have hform : recordText "some".toList a b c t = 's' :: ("ome ".toList ++ ("avg10=".toList ++
      (a ++ (" avg60=".toList ++ (b ++ (" avg300=".toList ++ (c ++ (" total=".toList ++ t)))))))) := by
    simp [recordText]
  rw [hform] at hnone ⊢
  rw [findAll_of_none _ _ _ hnone, findAll_skip _ _ (by decide)]
  apply findAll_few_spaces
  simp only [List.count_append]
  have h1 : "avg10=".toList.count ' ' = 0 := by decide
  have h2 : " avg60=".toList.count ' ' = 1 := by decide
  have h3 : " avg300=".toList.count ' ' = 1 := by decide
  have h4 : " total=".toList.count ' ' = 1 := by decide
  have e1 : a.count ' ' = 0 := List.count_eq_zero.mpr ha
  have e2 : b.count ' ' = 0 := List.count_eq_zero.mpr hb
  have e3 : c.count ' ' = 0 := List.count_eq_zero.mpr hc
  have e4 : t.count ' ' = 0 := List.count_eq_zero.mpr ht
  omega

/-- The records of a content made of a record line and a line in which nothing
is recognised, in either order, with or without a final newline. -/
theorem findAll_line_and_unrecognised (ty a b c t other tail : List Char)
    (hty : ty = "some".toList ∨ ty = "full".toList)
    (h : a ≠ [] ∧ (∀ x ∈ a, isDigitOrDot x = true) ∧ b ≠ [] ∧
      (∀ x ∈ b, isDigitOrDot x = true) ∧ c ≠ [] ∧ (∀ x ∈ c, isDigitOrDot x = true) ∧
      t ≠ [] ∧ (∀ x ∈ t, isDigit x = true))
    (hother : pressureLineRE.FindAllStringSubmatch other = [])
    (htail : tail = [] ∨ tail = ['\n']) :
    pressureLineRE.FindAllStringSubmatch (recordText ty a b c t ++ '\n' :: (other ++ tail))
      = [[recordText ty a b c t, ty, a, b, c, t]] ∧
    pressureLineRE.FindAllStringSubmatch (other ++ '\n' :: (recordText ty a b c t ++ tail))
      = [[recordText ty a b c t, ty, a, b, c, t]] := by
  obtain ⟨htl, hhd⟩ := findAll_newline_tail tail htail
  obtain ⟨p1, p2, p3, p4, p5, p6, p7, p8⟩ := h
  have hA := findAll_line ty a b c t [] hty p1 p2 p3 p4 p5 p6 p7 p8 (by simp)
  rw [List.append_nil, findAll_nil] at hA
  have hO : pressureLineRE.FindAllStringSubmatch (other ++ tail) = [] := by
    rcases htail with rfl | rfl
    · simpa using hother
    · rw [findAll_append_newline _ _ (le_refl _), hother, findAll_nil]
      rfl
  constructor
  · rw [findAll_append_newline _ _ (le_refl _), hA, hO]
    rfl
  · rw [findAll_append_newline _ _ (le_refl _), hother,
      findAll_line ty a b c t tail hty p1 p2 p3 p4 p5 p6 p7 p8 hhd, htl]
    rfl

/-- C10, amended. Beside one valid `full` line, in either order, what a `some`
line with a malformed average does depends on the average. When the averages
are non-empty runs of digits and dots, the line is recognised: if the
conversion rejects one of them (as `1.2.3` or `.`) the parse fails with the
conversion error of the first rejected average, naming the field and its text,
with `Some` absent; if it accepts them all (as `.5` or `5.`) the parse succeeds
with both measurements. When an average is empty or has a character other than
digits and the dot (the fields holding no space), the line is not recognised
and the parse succeeds with `Full` from the valid line and `Some` absent. -/
theorem malformed_average_line (fs : FS)
    (resource content a1 b1 c1 t1 a2 b2 c2 t2 tail : List Char)
    (hfull : ValidFields a2 b2 c2 t2)
    (htail : tail = [] ∨ tail = ['\n'])
    (hcontent :
      content = recordText "full".toList a2 b2 c2 t2 ++ '\n' ::
        (recordText "some".toList a1 b1 c1 t1 ++ tail) ∨
      content = recordText "some".toList a1 b1 c1 t1 ++ '\n' ::
        (recordText "full".toList a2 b2 c2 t2 ++ tail))
    (hread : fs.ReadFile resource = Except.ok content) :
    ((a1 ≠ [] ∧ ∀ x ∈ a1, isDigitOrDot x = true) →
     (b1 ≠ [] ∧ ∀ x ∈ b1, isDigitOrDot x = true) →
     (c1 ≠ [] ∧ ∀ x ∈ c1, isDigitOrDot x = true) →
     (t1 ≠ [] ∧ ∀ x ∈ t1, isDigit x = true) → (ParseUint t1 10 64).2 = none →
     ((ParseFloat a1).2 ≠ none ∨ (ParseFloat b1).2 ≠ none ∨ (ParseFloat c1).2 ≠ none) →
      (NewResourcePressure fs resource).1.Some = none ∧
      ∃ name raw err,
        ((name = "avg10".toList ∧ raw = a1) ∨
         (name = "avg60".toList ∧ raw = b1 ∧ (ParseFloat a1).2 = none) ∨
         (name = "avg300".toList ∧ raw = c1 ∧ (ParseFloat a1).2 = none ∧
           (ParseFloat b1).2 = none)) ∧
        (ParseFloat raw).2 = some err ∧
        (NewResourcePressure fs resource).2 =
          some ("could not parse ".toList ++ name ++ [' '] ++ raw ++ ": ".toList ++ err.Error)) ∧
    (' ' ∉ a1 → ' ' ∉ b1 → ' ' ∉ c1 → ' ' ∉ t1 →
     ((a1 = [] ∨ ∃ x ∈ a1, isDigitOrDot x = false) ∨ (b1 = [] ∨ ∃ x ∈ b1, isDigitOrDot x = false) ∨
       (c1 = [] ∨ ∃ x ∈ c1, isDigitOrDot x = false)) →
      NewResourcePressure fs resource =
        ({ Resource := resource, Full := some (convertedFields a2 b2 c2 t2), Some := none },
          none)) ∧
    ((a1 ≠ [] ∧ ∀ x ∈ a1, isDigitOrDot x = true) →
     (b1 ≠ [] ∧ ∀ x ∈ b1, isDigitOrDot x = true) →
     (c1 ≠ [] ∧ ∀ x ∈ c1, isDigitOrDot x = true) →
     (t1 ≠ [] ∧ ∀ x ∈ t1, isDigit x = true) → (ParseUint t1 10 64).2 = none →
     (ParseFloat a1).2 = none → (ParseFloat b1).2 = none → (ParseFloat c1).2 = none →
      NewResourcePressure fs resource =
        ({ Resource := resource, Full := some (convertedFields a2 b2 c2 t2),
           Some := some (convertedFields a1 b1 c1 t1) }, none)) := by
  refine ⟨?_, ?_, ?_⟩
  · intro ha hb hc ht htotal hbad
    exact malformed_average_error fs resource content a1 b1 c1 t1 a2 b2 c2 t2 tail hfull
      ha hb hc ht htotal hbad htail hcontent hread
  rotate_left
  · intro ha hb hc ht h1 h2 h3 h4
    have hS : a1 ≠ [] ∧ (∀ x ∈ a1, isDigitOrDot x = true) ∧ b1 ≠ [] ∧
        (∀ x ∈ b1, isDigitOrDot x = true) ∧ c1 ≠ [] ∧ (∀ x ∈ c1, isDigitOrDot x = true) ∧
        t1 ≠ [] ∧ (∀ x ∈ t1, isDigit x = true) :=
      ⟨ha.1, ha.2, hb.1, hb.2, hc.1, hc.2, ht.1, ht.2⟩
    have hF := validFields_run a2 b2 c2 t2 hfull
    have cF := converts_record (recordText "full".toList a2 b2 c2 t2) "full".toList a2 b2 c2 t2
      hfull.2.2.2.2.2
    have cS := converts_record (recordText "some".toList a1 b1 c1 t1) "some".toList a1 b1 c1 t1
      ⟨h1, h2, h3, h4⟩
    rw [newResourcePressure_ok fs resource content hread]
    rcases hcontent with rfl | rfl
    · rw [findAll_two_lines _ a2 b2 c2 t2 _ a1 b1 c1 t1 tail (Or.inr rfl) hF (Or.inl rfl) hS
        htail, loop_cons_full _ _ _ _ cF rfl, loop_cons_some _ _ _ _ cS rfl, loop_nil]
      rfl
    · rw [findAll_two_lines _ a1 b1 c1 t1 _ a2 b2 c2 t2 tail (Or.inl rfl) hS (Or.inr rfl) hF
        htail, loop_cons_some _ _ _ _ cS rfl, loop_cons_full _ _ _ _ cF rfl, loop_nil]
      rfl
  · intro ha hb hc ht hbad
    have hnot : ¬ ((a1 ≠ [] ∧ ∀ x ∈ a1, isDigitOrDot x = true) ∧
        (b1 ≠ [] ∧ ∀ x ∈ b1, isDigitOrDot x = true) ∧
        (c1 ≠ [] ∧ ∀ x ∈ c1, isDigitOrDot x = true)) := by
      rintro ⟨⟨h1, h2⟩, ⟨h3, h4⟩, ⟨h5, h6⟩⟩
      rcases hbad with (h | ⟨x, hx, hx1⟩) | (h | ⟨x, hx, hx1⟩) | (h | ⟨x, hx, hx1⟩)
      · exact h1 h
      · rw [h2 x hx] at hx1; cases hx1
      · exact h3 h
      · rw [h4 x hx] at hx1; cases hx1
      · exact h5 h
      · rw [h6 x hx] at hx1; cases hx1
    have hother := findAll_foreign_average a1 b1 c1 t1 ha hb hc ht hnot
    have hrec := findAll_line_and_unrecognised "full".toList a2 b2 c2 t2
      (recordText "some".toList a1 b1 c1 t1) tail (Or.inr rfl)
      (validFields_run a2 b2 c2 t2 hfull) hother htail
    have cF := converts_record (recordText "full".toList a2 b2 c2 t2) "full".toList a2 b2 c2 t2
      hfull.2.2.2.2.2
    rw [newResourcePressure_ok fs resource content hread]
    rcases hcontent with rfl | rfl
    · rw [hrec.1, loop_cons_full _ _ _ _ cF rfl, loop_nil]
      rfl
    · rw [hrec.2, loop_cons_full _ _ _ _ cF rfl, loop_nil]
      rfl

theorem malformed_average_line_witness :
    ((NewResourcePressure
      ⟨fun _ => Except.ok ("full avg10=0.00 avg60=0.00 avg300=0.00 total=1\n" ++
        "some avg10=0.00 avg60=1.2.3 avg300=. total=1\n").toList⟩ "memory".toList).1.Some
      = none ∧
    ∃ name raw err,
      ((name = "avg10".toList ∧ raw = "0.00".toList) ∨
       (name = "avg60".toList ∧ raw = "1.2.3".toList ∧ (ParseFloat "0.00".toList).2 = none) ∨
       (name = "avg300".toList ∧ raw = ".".toList ∧ (ParseFloat "0.00".toList).2 = none ∧
         (ParseFloat "1.2.3".toList).2 = none)) ∧
      (ParseFloat raw).2 = some err ∧
      (NewResourcePressure
        ⟨fun _ => Except.ok ("full avg10=0.00 avg60=0.00 avg300=0.00 total=1\n" ++
          "some avg10=0.00 avg60=1.2.3 avg300=. total=1\n").toList⟩ "memory".toList).2 =
        some ("could not parse ".toList ++ name ++ [' '] ++ raw ++ ": ".toList ++ err.Error)) ∧
    NewResourcePressure
      ⟨fun _ => Except.ok ("some avg10=0.00 avg60=1e5 avg300=0.00 total=1\n" ++
        "full avg10=0.00 avg60=0.00 avg300=0.00 total=1").toList⟩ "memory".toList =
      ({ Resource := "memory".toList
         Full := some (convertedFields "0.00".toList "0.00".toList "0.00".toList "1".toList)
         Some := none }, none) :=
  ⟨(malformed_average_line _ "memory".toList _ "0.00".toList "1.2.3".toList ".".toList
      "1".toList "0.00".toList "0.00".toList "0.00".toList "1".toList ['\n']
      (by decide) (Or.inr rfl) (Or.inl rfl) rfl).1
      (by decide) (by decide) (by decide) (by decide) (by decide) (by decide),
   (malformed_average_line _ "memory".toList _ "0.00".toList "1e5".toList "0.00".toList
      "1".toList "0.00".toList "0.00".toList "0.00".toList "1".toList []
      (by decide) (Or.inl rfl) (Or.inr rfl) rfl).2.1
      (by decide) (by decide) (by decide) (by decide) (by decide)⟩

/-! ## Claims C11 and C12 -/

theorem loop_resource (resource : List Char) :
    ∀ (ms : List (List (List Char))) (result : ResourcePressure),
      (pressureLoop resource result ms).1.Resource = result.Resource := by
  intro ms
  induction ms with
  | nil =>
    intro result
    rw [loop_nil]
    by_cases hb : result.Some = none ∧ result.Full = none
    · rw [if_pos hb]
    · rw [if_neg hb]
  | cons m ms ih =>
    intro result
    rcases loop_cons_cases resource result m ms with ⟨e, _, he⟩ | ⟨_, _, he⟩ | ⟨_, _, he⟩ |
      ⟨_, _, _, he⟩
    · rw [he]
    · rw [he, ih]
    · rw [he, ih]
    · rw [he]

/-- C11. Whatever the resource name and the outcome of reading the file, the
`Resource` field of the returned value is the resource name passed in, on a
successful return and on every error return alike. -/
theorem resource_is_tagged (fs : FS) (resource : List Char) :
    (NewResourcePressure fs resource).1.Resource = resource := by
  cases hr : fs.ReadFile resource with
  | error err => rw [newResourcePressure_error fs resource err hr]
  | ok data => rw [newResourcePressure_ok fs resource data hr, loop_resource]

/-- The two runs of the loop over the same records under two resource names,
from results with the same measurements. -/
theorem loop_two_resources (r1 r2 : List Char) :
    ∀ (ms : List (List (List Char))) (res1 res2 : ResourcePressure),
      res1.Some = res2.Some → res1.Full = res2.Full →
      (pressureLoop r1 res1 ms).1.Some = (pressureLoop r2 res2 ms).1.Some ∧
      (pressureLoop r1 res1 ms).1.Full = (pressureLoop r2 res2 ms).1.Full ∧
      ((pressureLoop r1 res1 ms).2 = (pressureLoop r2 res2 ms).2 ∨
       ((pressureLoop r1 res1 ms).2
          = some ("could not parse pressure file for ".toList ++ r1) ∧
        (pressureLoop r2 res2 ms).2
          = some ("could not parse pressure file for ".toList ++ r2))) := by
  intro ms
  induction ms with
  | nil =>
    intro res1 res2 hs hf
    rw [loop_nil, loop_nil, hs, hf]
    by_cases hb : res2.Some = none ∧ res2.Full = none
    · rw [if_pos hb, if_pos hb]
      exact ⟨hs, hf, Or.inr ⟨rfl, rfl⟩⟩
    · rw [if_neg hb, if_neg hb]
      exact ⟨hs, hf, Or.inl rfl⟩
  | cons m ms ih =>
    intro res1 res2 hs hf
    rcases loop_cons_cases r1 res1 m ms with ⟨e, hce, he⟩ | ⟨hc, hty, he⟩ | ⟨hc, hty, he⟩ |
      ⟨hc, hty1, hty2, he⟩
    · rw [he, loop_cons_error r2 res2 m ms e hce]
      exact ⟨hs, hf, Or.inl rfl⟩
    · rw [he, loop_cons_some r2 res2 m ms hc hty]
      exact ih _ _ rfl hf
    · rw [he, loop_cons_full r2 res2 m ms hc hty]
      exact ih _ _ hs rfl
    · rw [he, loop_cons_unknown r2 res2 m ms hc hty1 hty2]
      exact ⟨hs, hf, Or.inl rfl⟩

/-- C12. The resource name is not interpreted: the parses of one content under
two resource names have the same `Some` and `Full`, succeed or fail together,
and return the same error unless both return the no-data error, each naming
its own resource. -/
theorem resource_not_interpreted (fs1 fs2 : FS) (r1 r2 content : List Char)
    (hread1 : fs1.ReadFile r1 = Except.ok content)
    (hread2 : fs2.ReadFile r2 = Except.ok content) :
    (NewResourcePressure fs1 r1).1.Some = (NewResourcePressure fs2 r2).1.Some ∧
    (NewResourcePressure fs1 r1).1.Full = (NewResourcePressure fs2 r2).1.Full ∧
    ((NewResourcePressure fs1 r1).2 = none ↔ (NewResourcePressure fs2 r2).2 = none) ∧
    ((NewResourcePressure fs1 r1).2 = (NewResourcePressure fs2 r2).2 ∨
     ((NewResourcePressure fs1 r1).2
        = some ("could not parse pressure file for ".toList ++ r1) ∧
      (NewResourcePressure fs2 r2).2
        = some ("could not parse pressure file for ".toList ++ r2))) := by
  rw [newResourcePressure_ok fs1 r1 content hread1, newResourcePressure_ok fs2 r2 content hread2]
  obtain ⟨hs, hf, he⟩ := loop_two_resources r1 r2 (pressureLineRE.FindAllStringSubmatch content)
    { Resource := r1, Full := none, Some := none } { Resource := r2, Full := none, Some := none }
    rfl rfl
  refine ⟨hs, hf, ?_, he⟩
  rcases he with he | ⟨he1, he2⟩
  · rw [he]
  · rw [he1, he2]; simp

theorem resource_not_interpreted_witness :
    (NewResourcePressure ⟨fun _ => Except.ok "full avg10=1.2 avg60=0.4 avg300=0.0 total=44\n".toList⟩
        "io".toList).1.Full
      = (NewResourcePressure
        ⟨fun _ => Except.ok "full avg10=1.2 avg60=0.4 avg300=0.0 total=44\n".toList⟩
        "memory".toList).1.Full ∧
    (NewResourcePressure ⟨fun _ => Except.ok "full avg10=1.2 avg60=0.4 avg300=0.0 total=44\n".toList⟩
        "io".toList).2 = none ∧
    (NewResourcePressure ⟨fun _ => Except.ok "nothing here\n".toList⟩ "io".toList).2
      = some "could not parse pressure file for io".toList ∧
    (NewResourcePressure ⟨fun _ => Except.ok "nothing here\n".toList⟩ "memory".toList).2
      = some "could not parse pressure file for memory".toList :=
  ⟨(resource_not_interpreted
      ⟨fun _ => Except.ok "full avg10=1.2 avg60=0.4 avg300=0.0 total=44\n".toList⟩
      ⟨fun _ => Except.ok "full avg10=1.2 avg60=0.4 avg300=0.0 total=44\n".toList⟩
      "io".toList "memory".toList _ rfl rfl).2.1,
   by decide, by decide, by decide⟩

/-! ## Claim C13 -/

theorem exists_first_failure :
    ∀ ms : List (List (List Char)), (∃ m ∈ ms, ¬ Converts m) →
      ∃ pre m post, ms = pre ++ m :: post ∧ (∀ x ∈ pre, Converts x) ∧ ¬ Converts m := by
  intro ms
  induction ms with
  | nil => rintro ⟨m, hm, _⟩; simp at hm
  | cons x xs ih =>
    rintro ⟨m, hm, hc⟩
    by_cases hx : Converts x
    · have hex : ∃ m ∈ xs, ¬ Converts m := by
        rcases List.mem_cons.mp hm with rfl | hm
        · exact absurd hx hc
        · exact ⟨m, hm, hc⟩
      obtain ⟨pre, m1, post, hxs, hpre, hm1⟩ := ih hex
      refine ⟨x :: pre, m1, post, by simp [hxs], ?_, hm1⟩
      intro y hy
      rcases List.mem_cons.mp hy with rfl | hy
      · exact hx
      · exact hpre y hy
    · exact ⟨[], x, xs, rfl, by simp, hx⟩

/-- The loop up to the first record with a failing conversion: the records
before it are stored, the error is that record's, the records after it play no
part. -/
theorem loop_first_failure (resource : List Char) (m : List (List Char))
    (post : List (List (List Char))) (e : GoError) (he : convError m = some e) :
    ∀ (pre : List (List (List Char))) (result : ResourcePressure),
      (∀ x ∈ pre, IsRecord x ∧ Converts x) →
      pressureLoop resource result (pre ++ m :: post) = (pre.foldl storeRecord result, some e) := by
  intro pre
  induction pre with
  | nil => intro result _; exact loop_cons_error resource result m post e he
  | cons x xs ih =>
    intro result h
    rw [List.cons_append, loop_cons_store _ _ _ _ (h x (by simp)).1 (h x (by simp)).2,
      List.foldl_cons]
    exact ih _ (fun y hy => h y (by simp [hy]))

theorem convError_ne_none (m : List (List Char)) (h : ¬ Converts m) :
    ∃ e, convError m = some e := by
  cases hc : convError m with
  | none => exact absurd ((convError_none_iff m).mp hc) h
  | some e => exact ⟨e, rfl⟩

theorem foldl_store_init (resource : List Char) (pre : List (List (List Char)))
    (hrec : ∀ x ∈ pre, IsRecord x) :
    (pre.foldl storeRecord { Resource := resource, Full := none, Some := none }).Some
      = (lastOfKind "some" pre).map measurementOf ∧
    (pre.foldl storeRecord { Resource := resource, Full := none, Some := none }).Full
      = (lastOfKind "full" pre).map measurementOf := by
  constructor
  · rw [foldl_store_some]
    cases lastOfKind "some" pre <;> rfl
  · rw [foldl_store_full _ _ hrec]
    cases lastOfKind "full" pre <;> rfl

theorem loop_error_source (resource content : List Char) (result : ResourcePressure)
    (herr : (pressureLoop resource result (pressureLineRE.FindAllStringSubmatch content)).2 ≠ none) :
    pressureLineRE.FindAllStringSubmatch content = [] ∨
    ∃ m ∈ pressureLineRE.FindAllStringSubmatch content, ¬ Converts m := by
  by_contra hcon
  rw [not_or] at hcon
  obtain ⟨hne, hall⟩ := hcon
  have hconv : ∀ x ∈ pressureLineRE.FindAllStringSubmatch content, IsRecord x ∧ Converts x := by
    intro x hx
    refine ⟨findAll_isRecord _ content (le_refl _) x hx, ?_⟩
    by_contra hx2
    exact hall ⟨x, hx, hx2⟩
  cases hms : pressureLineRE.FindAllStringSubmatch content with
  | nil => exact hne hms
  | cons m ms =>
    rw [hms] at herr hconv
    rw [loop_all_convert_ok resource m ms _ hconv] at herr
    exact herr rfl

/-- C13, the claim as stated fails. A valid `some` line followed by a `full`
line whose total is out of range: the parse returns an error, and beside it a
value in which `Some` is present. -/
theorem partial_result_counterexample :
    (NewResourcePressure
      ⟨fun _ => Except.ok ("some avg10=0.10 avg60=0.20 avg300=0.30 total=7\n" ++
        "full avg10=0.00 avg60=0.00 avg300=0.00 total=18446744073709551616\n").toList⟩
      "io".toList).2 ≠ none ∧
    (NewResourcePressure
      ⟨fun _ => Except.ok ("some avg10=0.10 avg60=0.20 avg300=0.30 total=7\n" ++
        "full avg10=0.00 avg60=0.00 avg300=0.00 total=18446744073709551616\n").toList⟩
      "io".toList).1.Some
      = some (convertedFields "0.10".toList "0.20".toList "0.30".toList "7".toList) ∧
    ¬ ((NewResourcePressure
      ⟨fun _ => Except.ok ("some avg10=0.10 avg60=0.20 avg300=0.30 total=7\n" ++
        "full avg10=0.00 avg60=0.00 avg300=0.00 total=18446744073709551616\n").toList⟩
      "io".toList).1.Some = none ∧
      (NewResourcePressure
      ⟨fun _ => Except.ok ("some avg10=0.10 avg60=0.20 avg300=0.30 total=7\n" ++
        "full avg10=0.00 avg60=0.00 avg300=0.00 total=18446744073709551616\n").toList⟩
      "io".toList).1.Full = none) := by
  refine ⟨by decide, by decide, by decide⟩

/-- C13, amended. When the parse of a content returns an error, the value
returned beside it holds what the loop had stored before it stopped: either no
record is recognised and both `Some` and `Full` are absent, or some record is
the first with a failing conversion and `Some` and `Full` are the measurements
of the last `some` and the last `full` record before it, absent when there is
none. -/
theorem error_value_is_stored_records (fs : FS) (resource content : List Char)
    (hread : fs.ReadFile resource = Except.ok content)
    (herr : (NewResourcePressure fs resource).2 ≠ none) :
    (pressureLineRE.FindAllStringSubmatch content = [] ∧
      (NewResourcePressure fs resource).1.Some = none ∧
      (NewResourcePressure fs resource).1.Full = none) ∨
    (∃ pre m post, pressureLineRE.FindAllStringSubmatch content = pre ++ m :: post ∧
      (∀ x ∈ pre, Converts x) ∧ ¬ Converts m ∧
      (NewResourcePressure fs resource).1.Some = (lastOfKind "some" pre).map measurementOf ∧
      (NewResourcePressure fs resource).1.Full = (lastOfKind "full" pre).map measurementOf) := by
  rw [newResourcePressure_ok fs resource content hread] at herr ⊢
  rcases loop_error_source resource content _ herr with h0 | ⟨m, hm, hnc⟩
  · left
    rw [h0, loop_nil]
    simp
  · right
    obtain ⟨pre, m1, post, hms, hpre, hm1⟩ := exists_first_failure _ ⟨m, hm, hnc⟩
    obtain ⟨e, he⟩ := convError_ne_none m1 hm1
    have hrec : ∀ x ∈ pre, IsRecord x := by
      intro x hx
      exact findAll_isRecord _ content (le_refl _) x (by rw [hms]; simp [hx])
    rw [hms, loop_first_failure resource m1 post e he pre _ (fun x hx => ⟨hrec x hx, hpre x hx⟩)]
    exact ⟨pre, m1, post, rfl, hpre, hm1, (foldl_store_init resource pre hrec).1,
      (foldl_store_init resource pre hrec).2⟩

theorem error_value_is_stored_records_witness :
    (NewResourcePressure
      ⟨fun _ => Except.ok ("some avg10=0.10 avg60=0.20 avg300=0.30 total=7\n" ++
        "full avg10=0.00 avg60=1.2.3 avg300=0.00 total=1\nsome avg10=9 avg60=9 avg300=9 total=9" ++
        "\n").toList⟩ "io".toList).2 ≠ none ∧
    ((pressureLineRE.FindAllStringSubmatch
        ("some avg10=0.10 avg60=0.20 avg300=0.30 total=7\n" ++
        "full avg10=0.00 avg60=1.2.3 avg300=0.00 total=1\nsome avg10=9 avg60=9 avg300=9 total=9" ++
        "\n").toList = [] ∧
      (NewResourcePressure
      ⟨fun _ => Except.ok ("some avg10=0.10 avg60=0.20 avg300=0.30 total=7\n" ++
        "full avg10=0.00 avg60=1.2.3 avg300=0.00 total=1\nsome avg10=9 avg60=9 avg300=9 total=9" ++
        "\n").toList⟩ "io".toList).1.Some = none ∧
      (NewResourcePressure
      ⟨fun _ => Except.ok ("some avg10=0.10 avg60=0.20 avg300=0.30 total=7\n" ++
        "full avg10=0.00 avg60=1.2.3 avg300=0.00 total=1\nsome avg10=9 avg60=9 avg300=9 total=9" ++
        "\n").toList⟩ "io".toList).1.Full = none) ∨
    (∃ pre m post, pressureLineRE.FindAllStringSubmatch
        ("some avg10=0.10 avg60=0.20 avg300=0.30 total=7\n" ++
        "full avg10=0.00 avg60=1.2.3 avg300=0.00 total=1\nsome avg10=9 avg60=9 avg300=9 total=9" ++
        "\n").toList = pre ++ m :: post ∧
      (∀ x ∈ pre, Converts x) ∧ ¬ Converts m ∧
      (NewResourcePressure
      ⟨fun _ => Except.ok ("some avg10=0.10 avg60=0.20 avg300=0.30 total=7\n" ++
        "full avg10=0.00 avg60=1.2.3 avg300=0.00 total=1\nsome avg10=9 avg60=9 avg300=9 total=9" ++
        "\n").toList⟩ "io".toList).1.Some = (lastOfKind "some" pre).map measurementOf ∧
      (NewResourcePressure
      ⟨fun _ => Except.ok ("some avg10=0.10 avg60=0.20 avg300=0.30 total=7\n" ++
        "full avg10=0.00 avg60=1.2.3 avg300=0.00 total=1\nsome avg10=9 avg60=9 avg300=9 total=9" ++
        "\n").toList⟩ "io".toList).1.Full = (lastOfKind "full" pre).map measurementOf)) :=
  ⟨by decide, error_value_is_stored_records _ "io".toList _ rfl (by decide)⟩

/-! ## Claim C14 -/

theorem convError_head (m : List (List Char)) (e : GoError) (h : convError m = some e) :
    e.head? = some 'c' := by
  unfold convError at h
  cases h1 : (ParseUint (field m "total") 10 64).2 with
  | some e1 => rw [h1] at h; simp only [Option.some.injEq] at h; rw [← h]; rfl
  | none =>
  rw [h1] at h
  cases h2 : (ParseFloat (field m "avg10")).2 with
  | some e1 => rw [h2] at h; simp only [Option.some.injEq] at h; rw [← h]; rfl
  | none =>
  rw [h2] at h
  cases h3 : (ParseFloat (field m "avg60")).2 with
  | some e1 => rw [h3] at h; simp only [Option.some.injEq] at h; rw [← h]; rfl
  | none =>
  rw [h3] at h
  cases h4 : (ParseFloat (field m "avg300")).2 with
  | some e1 => rw [h4] at h; simp only [Option.some.injEq] at h; rw [← h]; rfl
  | none => rw [h4] at h; cases h

/-- Over records of the pattern, every error of the loop is a message that
starts with `could not parse`. -/
theorem loop_error_head (resource : List Char) :
    ∀ (ms : List (List (List Char))) (result : ResourcePressure) (e : GoError),
      (∀ m ∈ ms, IsRecord m) → (pressureLoop resource result ms).2 = some e →
      e.head? = some 'c' := by
  intro ms
  induction ms with
  | nil =>
    intro result e _ h
    rw [loop_nil] at h
    by_cases hb : result.Some = none ∧ result.Full = none
    · rw [if_pos hb] at h
      simp only [Option.some.injEq] at h
      rw [← h]
      rfl
    · rw [if_neg hb] at h; cases h
  | cons m ms ih =>
    intro result e hrec h
    have hrec1 : ∀ x ∈ ms, IsRecord x := fun x hx => hrec x (by simp [hx])
    rcases loop_cons_cases resource result m ms with ⟨e1, hce, he⟩ | ⟨_, _, he⟩ | ⟨_, _, he⟩ |
      ⟨_, hs, hf, _⟩
    · rw [he] at h
      simp only [Option.some.injEq] at h
      rw [← h]
      exact convError_head m e1 hce
    · rw [he] at h; exact ih _ e hrec1 h
    · rw [he] at h; exact ih _ e hrec1 h
    · rcases isRecord_type m (hrec m (by simp)) with h1 | h1
      · exact absurd h1 hs
      · exact absurd h1 hf

/-- C14. The unknown-kind error is unreachable: in every content the kind
captured for each recognised record is exactly `some` or `full`, and the parse
never returns an error `unknown pressure measurement type ...`. -/
theorem unknown_kind_unreachable (fs : FS) (resource content : List Char)
    (hread : fs.ReadFile resource = Except.ok content) :
    (∀ m ∈ pressureLineRE.FindAllStringSubmatch content,
      field m "type" = "some".toList ∨ field m "type" = "full".toList) ∧
    ∀ ty : List Char, (NewResourcePressure fs resource).2
      ≠ some ("unknown pressure measurement type ".toList ++ ty) := by
  have hrec := findAll_isRecord _ content (le_refl _)
  refine ⟨fun m hm => isRecord_type m (hrec m hm), ?_⟩
  intro ty h
  rw [newResourcePressure_ok fs resource content hread] at h
  have hc := loop_error_head resource _ _ _ hrec h
  have hu : ("unknown pressure measurement type ".toList ++ ty).head? = some 'u' := rfl
  rw [hu] at hc
  revert hc
  decide

theorem unknown_kind_unreachable_witness :
    (∀ m ∈ pressureLineRE.FindAllStringSubmatch
        "handsome avg10=1 avg60=2 avg300=3 total=4 fullfull avg10=. avg60=. avg300=. total=0".toList,
      field m "type" = "some".toList ∨ field m "type" = "full".toList) ∧
    ∀ ty : List Char, (NewResourcePressure
      ⟨fun _ => Except.ok
        "handsome avg10=1 avg60=2 avg300=3 total=4 fullfull avg10=. avg60=. avg300=. total=0".toList⟩
      "cpu".toList).2 ≠ some ("unknown pressure measurement type ".toList ++ ty) :=
  unknown_kind_unreachable _ "cpu".toList _ rfl

/-! ## Claim C16 -/

theorem convError_first (m : List (List Char)) (h : ¬ Converts m) :
    ∃ name raw err, FirstFailingField m name raw err ∧
      convError m =
        some ("could not parse ".toList ++ name ++ [' '] ++ raw ++ ": ".toList ++ err.Error) := by
  unfold FirstFailingField convError
  cases h1 : (ParseUint (field m "total") 10 64).2 with
  | some e => exact ⟨_, _, e, Or.inl ⟨rfl, rfl, rfl⟩, rfl⟩
  | none =>
    cases h2 : (ParseFloat (field m "avg10")).2 with
    | some e => exact ⟨_, _, e, Or.inr (Or.inl ⟨rfl, rfl, rfl, rfl⟩), rfl⟩
    | none =>
      cases h3 : (ParseFloat (field m "avg60")).2 with
      | some e => exact ⟨_, _, e, Or.inr (Or.inr (Or.inl ⟨rfl, rfl, rfl, rfl, rfl⟩)), rfl⟩
      | none =>
        cases h4 : (ParseFloat (field m "avg300")).2 with
        | some e =>
          exact ⟨_, _, e, Or.inr (Or.inr (Or.inr ⟨rfl, rfl, rfl, rfl, rfl, rfl⟩)), rfl⟩
        | none => exact absurd ⟨h1, h2, h3, h4⟩ h

/-- C16. When some recognised record has a failing conversion, the parse
returns the error of the first such record in textual order, and within it of
the first failing field in the order total, avg10, avg60, avg300. The returned
value holds what the records before it stored, and the records after it change
neither the error nor the value: any content with the same records up to it
gives the same return. -/
theorem first_failure_decides (fs : FS) (resource content : List Char)
    (hread : fs.ReadFile resource = Except.ok content)
    (hfail : ∃ m ∈ pressureLineRE.FindAllStringSubmatch content, ¬ Converts m) :
    ∃ pre m post, pressureLineRE.FindAllStringSubmatch content = pre ++ m :: post ∧
      (∀ x ∈ pre, Converts x) ∧ ¬ Converts m ∧
      (∃ name raw err, FirstFailingField m name raw err ∧
        (NewResourcePressure fs resource).2 =
          some ("could not parse ".toList ++ name ++ [' '] ++ raw ++ ": ".toList ++ err.Error)) ∧
      (NewResourcePressure fs resource).1 =
        pre.foldl storeRecord { Resource := resource, Full := none, Some := none } ∧
      ∀ (fs1 : FS) (content1 : List Char) (post1 : List (List (List Char))),
        fs1.ReadFile resource = Except.ok content1 →
        pressureLineRE.FindAllStringSubmatch content1 = pre ++ m :: post1 →
        NewResourcePressure fs1 resource = NewResourcePressure fs resource := by
  obtain ⟨pre, m, post, hms, hpre, hm⟩ := exists_first_failure _ hfail
  obtain ⟨name, raw, err, hfirst, he⟩ := convError_first m hm
  have hrec : ∀ x ∈ pre, IsRecord x ∧ Converts x := by
    intro x hx
    exact ⟨findAll_isRecord _ content (le_refl _) x (by rw [hms]; simp [hx]), hpre x hx⟩
  have hrun := loop_first_failure resource m post _ he pre
    { Resource := resource, Full := none, Some := none } hrec
  refine ⟨pre, m, post, hms, hpre, hm, ⟨name, raw, err, hfirst, ?_⟩, ?_, ?_⟩
  · rw [newResourcePressure_ok fs resource content hread, hms, hrun]
  · rw [newResourcePressure_ok fs resource content hread, hms, hrun]
  · intro fs1 content1 post1 hread1 hms1
    rw [newResourcePressure_ok fs resource content hread, hms, hrun,
      newResourcePressure_ok fs1 resource content1 hread1, hms1,
      loop_first_failure resource m post1 _ he pre _ hrec]

theorem first_failure_decides_witness :
    ∃ pre m post, pressureLineRE.FindAllStringSubmatch
        ("some avg10=0.10 avg60=0.20 avg300=0.30 total=7\n" ++
         "full avg10=0.00 avg60=1.2.3 avg300=. total=1\n" ++
         "some avg10=9 avg60=9 avg300=9 total=99999999999999999999\n").toList
        = pre ++ m :: post ∧
      (∀ x ∈ pre, Converts x) ∧ ¬ Converts m ∧
      (∃ name raw err, FirstFailingField m name raw err ∧
        (NewResourcePressure
          ⟨fun _ => Except.ok ("some avg10=0.10 avg60=0.20 avg300=0.30 total=7\n" ++
            "full avg10=0.00 avg60=1.2.3 avg300=. total=1\n" ++
            "some avg10=9 avg60=9 avg300=9 total=99999999999999999999\n").toList⟩
          "io".toList).2 =
          some ("could not parse ".toList ++ name ++ [' '] ++ raw ++ ": ".toList ++ err.Error)) ∧
      (NewResourcePressure
          ⟨fun _ => Except.ok ("some avg10=0.10 avg60=0.20 avg300=0.30 total=7\n" ++
            "full avg10=0.00 avg60=1.2.3 avg300=. total=1\n" ++
            "some avg10=9 avg60=9 avg300=9 total=99999999999999999999\n").toList⟩
          "io".toList).1 =
        pre.foldl storeRecord { Resource := "io".toList, Full := none, Some := none } ∧
      ∀ (fs1 : FS) (content1 : List Char) (post1 : List (List (List Char))),
        fs1.ReadFile "io".toList = Except.ok content1 →
        pressureLineRE.FindAllStringSubmatch content1 = pre ++ m :: post1 →
        NewResourcePressure fs1 "io".toList = NewResourcePressure
          ⟨fun _ => Except.ok ("some avg10=0.10 avg60=0.20 avg300=0.30 total=7\n" ++
            "full avg10=0.00 avg60=1.2.3 avg300=. total=1\n" ++
            "some avg10=9 avg60=9 avg300=9 total=99999999999999999999\n").toList⟩
          "io".toList :=
  first_failure_decides _ "io".toList _ rfl (by decide)

theorem first_failure_example :
    NewResourcePressure
      ⟨fun _ => Except.ok ("some avg10=0.10 avg60=0.20 avg300=0.30 total=7\n" ++
        "full avg10=0.00 avg60=1.2.3 avg300=. total=1\n" ++
        "some avg10=9 avg60=9 avg300=9 total=99999999999999999999\n").toList⟩ "io".toList =
      ({ Resource := "io".toList, Full := none
         Some := some (convertedFields "0.10".toList "0.20".toList "0.30".toList "7".toList) },
       some ("could not parse avg60 1.2.3: strconv.ParseFloat: parsing \"1.2.3\": " ++
         "invalid syntax").toList) := by
  decide

/-! ## Claim C15 -/

theorem isDigit_bounds (c : Char) (h : isDigit c = true) : 48 ≤ c.toNat ∧ c.toNat ≤ 57 := by
  unfold isDigit at h
  simp only [Bool.and_eq_true, decide_eq_true_eq] at h
  obtain ⟨h1, h2⟩ := h
  rw [Char.le_def] at h1 h2
  constructor
  · exact h1
  · exact h2

theorem digitVal_of_isDigit (c : Char) (h : isDigit c = true) :
    digitVal c = some (c.toNat - '0'.toNat) ∧ c.toNat - '0'.toNat < 10 := by
  have hb := isDigit_bounds c h
  unfold isDigit at h
  simp only [Bool.and_eq_true, decide_eq_true_eq] at h
  unfold digitVal
  rw [if_pos h]
  refine ⟨rfl, ?_⟩
  show c.toNat - 48 < 10
  omega

theorem foldl_digits_ge (cs : List Char) :
    ∀ n : Nat, n ≤ cs.foldl (fun acc c => acc * 10 + (c.toNat - '0'.toNat)) n := by
  induction cs with
  | nil => intro n; exact le_refl n
  | cons c cs ih =>
    intro n
    rw [List.foldl_cons]
    have := ih (n * 10 + (c.toNat - '0'.toNat))
    omega

theorem parseUintLoop_digits (s0 : List Char) :
    ∀ (cs : List Char) (n : Nat), (∀ x ∈ cs, isDigit x = true) → n < 2 ^ 64 →
      parseUintLoop s0 10 (maxUint64 / 10 + 1) (2 ^ 64 - 1) cs n =
        if cs.foldl (fun acc c => acc * 10 + (c.toNat - '0'.toNat)) n < 2 ^ 64 then
          (cs.foldl (fun acc c => acc * 10 + (c.toNat - '0'.toNat)) n, none)
        else (2 ^ 64 - 1, some ⟨"ParseUint".toList, s0, .ErrRange⟩) := by
  have hcut : maxUint64 / 10 + 1 = 1844674407370955162 := by decide
  intro cs
  induction cs with
  | nil =>
    intro n _ hn
    rw [parseUintLoop, List.foldl_nil, if_pos hn]
  | cons c cs ih =>
    intro n hd hn
    obtain ⟨hval, hlt⟩ := digitVal_of_isDigit c (hd c (by simp))
    have hcs : ∀ x ∈ cs, isDigit x = true := fun x hx => hd x (by simp [hx])
    have hge := foldl_digits_ge cs (n * 10 + (c.toNat - '0'.toNat))
    rw [parseUintLoop, hval, List.foldl_cons, hcut]
    simp only
    rw [if_neg (by omega)]
    by_cases hc : n ≥ 1844674407370955162
    · rw [if_pos hc, if_neg (by norm_num at hge ⊢; omega)]
    · rw [if_neg hc]
      have hn0 : (n * 10) % 2 ^ 64 = n * 10 := Nat.mod_eq_of_lt (by norm_num; omega)
      rw [hn0]
      by_cases hsum : n * 10 + (c.toNat - '0'.toNat) < 2 ^ 64
      · have hn1 : (n * 10 + (c.toNat - '0'.toNat)) % 2 ^ 64 = n * 10 + (c.toNat - '0'.toNat) :=
          Nat.mod_eq_of_lt hsum
        rw [hn1, if_neg (by norm_num at hsum ⊢; omega)]
        exact ih _ hcs hsum
      · have hn1 : (n * 10 + (c.toNat - '0'.toNat)) % 2 ^ 64
            = n * 10 + (c.toNat - '0'.toNat) - 2 ^ 64 := by
          rw [Nat.mod_eq_sub_mod (by omega)]
          exact Nat.mod_eq_of_lt (by norm_num at hsum ⊢; omega)
        rw [hn1, if_pos (Or.inl (by norm_num at hsum ⊢; omega)),
          if_neg (by norm_num at hsum hge ⊢; omega)]

/-- `ParseUint(t, 10, 64)` on a non-empty run of digits: the number the digits
denote when it fits 64 bits, else the largest `uint64` and a range error. -/
theorem parseUint_digits (t : List Char) (hne : t ≠ []) (hd : ∀ x ∈ t, isDigit x = true) :
    ParseUint t 10 64 =
      if decimalValue t < 2 ^ 64 then (decimalValue t, none)
      else (2 ^ 64 - 1, some ⟨"ParseUint".toList, t, .ErrRange⟩) := by
  unfold ParseUint decimalValue
  rw [if_neg hne]
  exact parseUintLoop_digits t t 0 hd (by norm_num)

theorem isRecord_total (m : List (List Char)) (h : IsRecord m) :
    field m "total" ≠ [] ∧ ∀ x ∈ field m "total", isDigit x = true := by
  obtain ⟨ty, a, b, c, t, _, _, _, _, _, _, _, ht, ht1, rfl⟩ := h
  exact ⟨ht, ht1⟩

/-- C15, the claim as stated fails. Both records of this content are recognised
and both totals are 2^64 or larger, yet the error of the parse names the total
of the first record only: for the second record no error naming its total is
returned. -/
theorem total_overflow_counterexample :
    ["full avg10=0 avg60=0 avg300=0 total=18446744073709551617".toList, "full".toList,
        "0".toList, "0".toList, "0".toList, "18446744073709551617".toList]
      ∈ pressureLineRE.FindAllStringSubmatch
        ("some avg10=0 avg60=0 avg300=0 total=18446744073709551616\n" ++
         "full avg10=0 avg60=0 avg300=0 total=18446744073709551617\n").toList ∧
    2 ^ 64 ≤ decimalValue "18446744073709551617".toList ∧
    (NewResourcePressure
      ⟨fun _ => Except.ok ("some avg10=0 avg60=0 avg300=0 total=18446744073709551616\n" ++
         "full avg10=0 avg60=0 avg300=0 total=18446744073709551617\n").toList⟩ "io".toList).2
      = some ("could not parse total 18446744073709551616: strconv.ParseUint: parsing " ++
          "\"18446744073709551616\": value out of range").toList ∧
    ¬ ("could not parse total 18446744073709551617: ".toList <+:
        ("could not parse total 18446744073709551616: strconv.ParseUint: parsing " ++
          "\"18446744073709551616\": value out of range").toList) := by
  refine ⟨by decide, by decide, by decide, by decide⟩

/-- C15, amended. For every recognised record the captured total is a non-empty
run of decimal digits, and its conversion succeeds exactly when the number it
denotes (leading zeros allowed) is at most 2^64 - 1, in which case the total of
the measurement built from the record is that number. When the number is 2^64
or larger the parse fails, and when moreover every earlier record converts it
fails with the error `could not parse total <substring>: ...`, naming the
field and the raw substring. -/
theorem total_conversion (fs : FS) (resource content : List Char)
    (pre : List (List (List Char))) (m : List (List Char)) (post : List (List (List Char)))
    (hread : fs.ReadFile resource = Except.ok content)
    (hms : pressureLineRE.FindAllStringSubmatch content = pre ++ m :: post) :
    (field m "total" ≠ [] ∧ ∀ x ∈ field m "total", isDigit x = true) ∧
    ((ParseUint (field m "total") 10 64).2 = none ↔ decimalValue (field m "total") ≤ 2 ^ 64 - 1) ∧
    (decimalValue (field m "total") ≤ 2 ^ 64 - 1 →
      (measurementOf m).TotalMicroseconds = decimalValue (field m "total")) ∧
    (2 ^ 64 ≤ decimalValue (field m "total") →
      (NewResourcePressure fs resource).2 ≠ none ∧
      ((∀ x ∈ pre, Converts x) →
        (NewResourcePressure fs resource).2 =
          some ("could not parse total ".toList ++ field m "total" ++ ": ".toList ++
            ("strconv.ParseUint: parsing ".toList ++ Quote (field m "total") ++
              ": value out of range".toList)))) := by
  have hmem : m ∈ pressureLineRE.FindAllStringSubmatch content := by rw [hms]; simp
  have hrecs := findAll_isRecord _ content (le_refl _)
  obtain ⟨hne, hd⟩ := isRecord_total m (hrecs m hmem)
  have hparse := parseUint_digits (field m "total") hne hd
  refine ⟨⟨hne, hd⟩, ?_, ?_, ?_⟩
  · rw [hparse]
    by_cases hlt : decimalValue (field m "total") < 2 ^ 64
    · rw [if_pos hlt]
      constructor
      · intro _; omega
      · intro _; rfl
    · rw [if_neg hlt]
      constructor
      · intro h; cases h
      · intro h; omega
  · intro hle
    show (ParseUint (field m "total") 10 64).1 = _
    rw [hparse, if_pos (by omega)]
  · intro hge
    have hfail : (ParseUint (field m "total") 10 64).2
        = some ⟨"ParseUint".toList, field m "total", .ErrRange⟩ := by
      rw [hparse, if_neg (by omega)]
    have hnc : ¬ Converts m := by
      intro hc
      rw [hc.1] at hfail
      cases hfail
    rw [newResourcePressure_ok fs resource content hread]
    constructor
    · exact loop_error_of_not_converts resource m _ _ hmem hnc
    · intro hpre
      have he : convError m = some ("could not parse total ".toList ++ field m "total" ++
          ": ".toList ++ ("strconv.ParseUint: parsing ".toList ++ Quote (field m "total") ++
            ": value out of range".toList)) := by
        unfold convError
        rw [hfail]
        simp [NumError.Error, ConvErr.Error]
      rw [hms, loop_first_failure resource m post _ he pre _
        (fun x hx => ⟨hrecs x (by rw [hms]; simp [hx]), hpre x hx⟩)]

theorem total_conversion_witness :
    (NewResourcePressure
      ⟨fun _ => Except.ok ("some avg10=0 avg60=0 avg300=0 total=0018446744073709551615\n" ++
         "full avg10=0 avg60=0 avg300=0 total=18446744073709551616\n").toList⟩ "io".toList).2
      = some ("could not parse total 18446744073709551616: strconv.ParseUint: parsing " ++
          "\"18446744073709551616\": value out of range").toList ∧
    (measurementOf ["some avg10=0 avg60=0 avg300=0 total=0018446744073709551615".toList,
      "some".toList, "0".toList, "0".toList, "0".toList,
      "0018446744073709551615".toList]).TotalMicroseconds = 18446744073709551615 := by
  have h2 := total_conversion
    ⟨fun _ => Except.ok ("some avg10=0 avg60=0 avg300=0 total=0018446744073709551615\n" ++
         "full avg10=0 avg60=0 avg300=0 total=18446744073709551616\n").toList⟩ "io".toList _
    [["some avg10=0 avg60=0 avg300=0 total=0018446744073709551615".toList,
      "some".toList, "0".toList, "0".toList, "0".toList, "0018446744073709551615".toList]]
    ["full avg10=0 avg60=0 avg300=0 total=18446744073709551616".toList, "full".toList,
        "0".toList, "0".toList, "0".toList, "18446744073709551616".toList] [] rfl (by decide)
  have h1 := total_conversion
    ⟨fun _ => Except.ok ("some avg10=0 avg60=0 avg300=0 total=0018446744073709551615\n" ++
         "full avg10=0 avg60=0 avg300=0 total=18446744073709551616\n").toList⟩ "io".toList _
    []
    ["some avg10=0 avg60=0 avg300=0 total=0018446744073709551615".toList,
      "some".toList, "0".toList, "0".toList, "0".toList, "0018446744073709551615".toList]
    [["full avg10=0 avg60=0 avg300=0 total=18446744073709551616".toList, "full".toList,
        "0".toList, "0".toList, "0".toList, "18446744073709551616".toList]] rfl (by decide)
  exact ⟨(h2.2.2.2 (by decide)).2 (by decide), h1.2.2.1 (by decide)⟩

end Procfs

